import Mathlib

/-! UFirstTestPC: hardware check against a fixed requirements policy.

A shallow embedding of `main.go`:

* `Float64` is Go's `float64` (IEEE 754 binary64) with its comparison and division,
* `Requirements`, `PCConfig`, `Result` are the three structs of the program,
* `tmpl` and `render` are the parsed template and its execution,
* `getSystemConfig` reads the four host queries and builds the `PCConfig`,
* `checkSystemHandler` is the HTTP handler.

Go's `int` is an unbounded `Int` wherever the program only compares it; the
conversion `int(x)` of an unsigned quotient wraps at the width `intSize` of `int`
(64 on amd64 and arm64, 32 on 386 and arm).  Calls to `log` write to the process
log only and are left out.
-/

/-! ## float64 -/

/-- Go's `float64`: the IEEE 754 binary64 values.  A finite value is given by its sign,
its 11-bit biased exponent field (2047 is left to the infinities and NaN) and its 52-bit
fraction field, so every non-NaN double is exactly one term.  All NaN payloads are one
`nan`: no operation of the program tells them apart. -/
inductive Float64
  | nan
  | inf (neg : Bool)
  | finite (neg : Bool) (expField : Fin 2047) (frac : Fin (2 ^ 52))
  deriving DecidableEq, Repr

namespace Float64

/-- The integer significand: the fraction field, with the hidden bit unless the exponent
field is 0 (zero and the subnormal numbers). -/
def mantissa (e : Fin 2047) (f : Fin (2 ^ 52)) : Nat :=
  if e.val = 0 then f.val else 2 ^ 52 + f.val

/-- The power of two the significand is scaled by, counted from `2 ^ (-1074)`: the finite
value is `± mantissa e f * 2 ^ exponent e * 2 ^ (-1074)`. -/
def exponent (e : Fin 2047) : Nat := e.val - 1

/-- The exact value of a finite double, as a rational number (0 for `nan` and `inf`). -/
def toRat : Float64 → ℚ
  | finite neg e f =>
    (if neg then -1 else 1) * (mantissa e f : ℚ) * 2 ^ exponent e / 2 ^ 1074
  | _ => 0

/-- The place of a non-NaN value on the extended number line: the low 63 bits of its
encoding (exponent field, then fraction field), with the sign.  The binary64 encoding is
monotone, so among the non-NaN values this orders as the values do
(`Float64.key_lt_iff_toRat_lt`); both zeros are at 0 and the infinities are past every
finite value. -/
def key : Float64 → Int
  | nan => 0
  | inf neg => if neg then -((2047 * 2 ^ 52 : Nat) : Int) else ((2047 * 2 ^ 52 : Nat) : Int)
  | finite neg e f =>
    if neg then -((e.val * 2 ^ 52 + f.val : Nat) : Int) else ((e.val * 2 ^ 52 + f.val : Nat) : Int)

/-- Go's `x < y` on `float64`: false when either operand is NaN. -/
def lt : Float64 → Float64 → Bool
  | nan, _ => false
  | _, nan => false
  | x, y => decide (x.key < y.key)

/-- Go's `x >= y` on `float64`: false when either operand is NaN. -/
def ge : Float64 → Float64 → Bool
  | nan, _ => false
  | _, nan => false
  | x, y => decide (y.key ≤ x.key)

/-- The value with the given sign whose low 63 bits are `bits`; past the largest finite
encoding it is the infinity. -/
def ofMagBits (neg : Bool) (bits : Nat) : Float64 :=
  if h : bits < 2047 * 2 ^ 52 then
    finite neg ⟨bits / 2 ^ 52, (Nat.div_lt_iff_lt_mul (Nat.two_pow_pos 52)).2 h⟩
      ⟨bits % 2 ^ 52, Nat.mod_lt _ (Nat.two_pow_pos 52)⟩
  else inf neg

/-- Binary logarithm of a natural number, rounded down (0 at 0), by halving. -/
def log2Fuel : Nat → Nat → Nat
  | 0, _ => 0
  | fuel + 1, n => if n < 2 then 0 else log2Fuel fuel (n / 2) + 1

/-- Binary logarithm of a natural number, rounded down (0 at 0). -/
def log2 (n : Nat) : Nat := log2Fuel n n

/-- Whether `2 ^ k ≤ n / d`, for `0 < d`. -/
def pow2Le (k : Int) (n d : Nat) : Bool :=
  if 0 ≤ k then decide (d * 2 ^ k.toNat ≤ n) else decide (d ≤ n * 2 ^ (-k).toNat)

/-- The integer `k` with `2 ^ k ≤ n / d < 2 ^ (k + 1)`, for `0 < n` and `0 < d`. -/
def floorLog2 (n d : Nat) : Int :=
  let k : Int := (log2 n : Int) - (log2 d : Int)
  if pow2Le k n d then k else k - 1

/-- The integer nearest to `n / d`, a tie going to the even one. -/
def roundHalfEven (n d : Nat) : Nat :=
  let q := n / d
  let r := n % d
  if 2 * r < d then q
  else if d < 2 * r then q + 1
  else if q % 2 = 0 then q else q + 1

/-- The double nearest to `± n / d` (for `0 < d`), ties to even: the rounding of IEEE 754
arithmetic and of Go's conversion of a constant to `float64`.  The quotient is rounded to
an integer multiple `m` of `2 ^ u`, where `u` is 52 below its binary exponent but not below
`-1074`; adding `m` to the exponent field times `2 ^ 52` carries a significand of 53 bits
(or of `2 ^ 53` after rounding up) into the exponent field. -/
def ofQuotient (neg : Bool) (n d : Nat) : Float64 :=
  if n = 0 then finite neg 0 0
  else
    let u : Int := max (floorLog2 n d) (-1022) - 52
    let m : Nat :=
      if 0 ≤ u then roundHalfEven n (d * 2 ^ u.toNat)
      else roundHalfEven (n * 2 ^ (-u).toNat) d
    ofMagBits neg ((u + 1074).toNat * 2 ^ 52 + m)

/-- Go's `x / y` on `float64`.  The quotient of two finite non-zero values is the exact
quotient of their significands, each scaled by its exponent less the smaller of the two,
rounded to the nearest double. -/
def div : Float64 → Float64 → Float64
  | nan, _ => nan
  | _, nan => nan
  | inf _, inf _ => nan
  | inf s, finite t _ _ => inf (xor s t)
  | finite s _ _, inf t => finite (xor s t) 0 0
  | finite s e f, finite t e' f' =>
    if mantissa e' f' = 0 then
      if mantissa e f = 0 then nan else inf (xor s t)
    else
      let low := min (exponent e) (exponent e')
      ofQuotient (xor s t) (mantissa e f * 2 ^ (exponent e - low))
        (mantissa e' f' * 2 ^ (exponent e' - low))

/-- The constant `0.0`. -/
def zero : Float64 := finite false 0 0

/-- The value `r` is a finite double nearest to the rational `q`, and the one with the even
fraction field when another double is as near. -/
def RoundsTo (q : ℚ) (r : Float64) : Prop :=
  match r with
  | finite neg e f =>
    ∀ (t : Bool) (e' : Fin 2047) (f' : Fin (2 ^ 52)),
      |(finite neg e f).toRat - q| ≤ |(finite t e' f').toRat - q| ∧
      (|(finite t e' f').toRat - q| = |(finite neg e f).toRat - q| →
        (finite t e' f').toRat ≠ (finite neg e f).toRat → f.val % 2 = 0)
  | _ => False

end Float64

/-! ## The structs of the program -/

/-- Requirements defines the minimum hardware requirements. -/
structure Requirements where
  Cores : Int
  ClockSpeedGHz : Float64
  MemoryGB : Int
  DiskSpaceGB : Int
  deriving DecidableEq, Repr

/-- PCConfig defines the configuration of a PC. -/
structure PCConfig where
  Cores : Int
  ClockSpeedGHz : Float64
  MemoryGB : Int
  DiskSpaceGB : Int
  deriving DecidableEq, Repr

/-- Result defines the structure of the response.  The default is Go's zero value
`Result{}`. -/
structure Result where
  MeetsRequirements : Bool := false
  Message : String := ""
  MessageBecause : String := ""
  Message2 : String := ""
  Message3 : String := ""
  Message4 : String := ""
  Message5 : String := ""
  deriving DecidableEq, Repr

/-- The local `required` of `checkSystemHandler`.  The constant `2.1` is converted to the
nearest `float64`. -/
def required : Requirements :=
  { Cores := 4
    ClockSpeedGHz := Float64.ofQuotient false 21 10
    MemoryGB := 6
    DiskSpaceGB := 20 }

/-- Lines 106 to 129 of `checkSystemHandler`: the `Result` built from `config`. -/
def checkSystemHandler_result (config : PCConfig) : Result :=
  let result : Result := {}
  if decide (config.Cores ≥ required.Cores) &&
      Float64.ge config.ClockSpeedGHz required.ClockSpeedGHz &&
      decide (config.MemoryGB ≥ required.MemoryGB) &&
      decide (config.DiskSpaceGB ≥ required.DiskSpaceGB) then
    let result := { result with MeetsRequirements := true }
    { result with Message := "Ваш ПК удовлетворяет требованиям." }
  else
    let result := { result with MessageBecause := "Это произошло из-за:" }
    let result :=
      if config.Cores < required.Cores then
        { result with Message2 := "Недостаточно ядер процессора" }
      else result
    let result :=
      if Float64.lt config.ClockSpeedGHz required.ClockSpeedGHz then
        { result with Message3 := "Недостаточно тактовой частоты" }
      else result
    let result :=
      if config.MemoryGB < required.MemoryGB then
        { result with Message4 := "Недостаточно оперативной памяти" }
      else result
    let result :=
      if config.DiskSpaceGB < required.DiskSpaceGB then
        { result with Message5 := "Недостаточно места диске" }
      else result
    let result := { result with MeetsRequirements := false }
    { result with Message := "Ваш ПК не удовлетворяет требованиям." }

/-! ## The template -/

/-- The six fields of `Result` the template reads. -/
inductive TmplField
  | Message
  | MessageBecause
  | Message2
  | Message3
  | Message4
  | Message5
  deriving DecidableEq, Repr

/-- The value of a field of `data`. -/
def TmplField.get (data : Result) : TmplField → String
  | .Message => data.Message
  | .MessageBecause => data.MessageBecause
  | .Message2 => data.Message2
  | .Message3 => data.Message3
  | .Message4 => data.Message4
  | .Message5 => data.Message5

/-- A node of a parsed template: literal text, or an action printing a field of the data. -/
inductive Node
  | text (s : String)
  | action (field : TmplField)
  deriving DecidableEq, Repr

/-- The package variable `tmpl`: the template literal of lines 40 to 56, parsed. -/
def tmpl : List Node :=
  [ .text "\n<!DOCTYPE html>\n<html>\n<head>\n\t<title>UFirst - Проверка конфигурации ПК</title>\n</head>\n<body>\n\t<h1>UFirst - Проверка конфигурации ПК</h1>\n\t<h2>",
    .action .Message,
    .text "</h2>\n\t<h2>",
    .action .MessageBecause,
    .text "</h2>\n\t<h2>",
    .action .Message2,
    .text "</h2>\n\t<h2>",
    .action .Message3,
    .text "</h2>\n\t<h2>",
    .action .Message4,
    .text "</h2>\n\t<h2>",
    .action .Message5,
    .text "</h2>\n</body>\n</html>\n" ]

/-- The replacement `html/template` makes for one character of a value printed between
tags: NUL, the two quotes, the ampersand, the plus sign and the angle brackets. -/
def htmlEscapeChar (c : Char) : List Char :=
  if c = Char.ofNat 0 then [Char.ofNat 0xFFFD]
  else if c = Char.ofNat 34 then "&#34;".data
  else if c = '&' then "&amp;".data
  else if c = Char.ofNat 39 then "&#39;".data
  else if c = '+' then "&#43;".data
  else if c = '<' then "&lt;".data
  else if c = '>' then "&gt;".data
  else [c]

/-- The escaping `html/template` applies to a string printed between tags. -/
def htmlEscape (s : String) : String := ⟨s.data.flatMap htmlEscapeChar⟩

/-- What executing one node writes. -/
def Node.exec (data : Result) : Node → String
  | .text s => s
  | .action field => htmlEscape (field.get data)

/-- What `tmpl.Execute(w, data)` writes to `w`. -/
def render (data : Result) : String := String.join (tmpl.map (Node.exec data))

/-- The number of places of a text at which `pat` begins. -/
def countOcc (pat : List Char) : List Char → Nat
  | [] => 0
  | c :: s => (if pat.isPrefixOf (c :: s) then 1 else 0) + countOcc pat s

/-- The number of opening tags `<tag>` in a document. -/
def elementCount (tag : String) (doc : String) : Nat :=
  countOcc ('<' :: (tag.data ++ ['>'])) doc.data

/-- The text that opens a message line: a tab and the opening tag. -/
def lineOpen : String := "\t<h2>"

/-- The text that closes a message line: the closing tag and the line break. -/
def lineClose : String := "</h2>\n"

/-- One line of the document holding a message: an `h2` element after a tab. -/
def messageLine (s : String) : String := lineOpen ++ htmlEscape s ++ lineClose

/-! ## The host queries and the handler -/

/-- A Go `error` value, by its message. -/
abbrev GoError := String

/-- The field of gopsutil's `cpu.InfoStat` the program reads. -/
structure InfoStat where
  Mhz : Float64
  deriving DecidableEq, Repr

/-- The field of gopsutil's `mem.VirtualMemoryStat` the program reads, a `uint64`. -/
structure VirtualMemoryStat where
  Total : Fin (2 ^ 64)
  deriving DecidableEq, Repr

/-- The field of gopsutil's `disk.UsageStat` the program reads, a `uint64`. -/
structure UsageStat where
  Free : Fin (2 ^ 64)
  deriving DecidableEq, Repr

/-- What the four gopsutil queries return on the host while one request is handled.
A pointer result is an `Option`, `none` being the nil pointer; the error result is `none`
for a nil error. -/
structure Host where
  cpuCounts : Bool → Int × Option GoError
  cpuInfo : List InfoStat × Option GoError
  memVirtualMemory : Option VirtualMemoryStat × Option GoError
  diskUsage : String → Option UsageStat × Option GoError

/-- A run-time panic. -/
inductive Panic
  | nilPointerDereference
  deriving DecidableEq, Repr

/-- Go's conversion `int(x)` of an unsigned value to an `int` of `intSize` bits: the low
`intSize` bits, read in two's complement. -/
def toInt (intSize : Nat) (x : Nat) : Int :=
  let low := x % 2 ^ intSize
  if low < 2 ^ (intSize - 1) then (low : Int) else (low : Int) - ((2 ^ intSize : Nat) : Int)

/-- The function `getSystemConfig`, for an `int` of `intSize` bits.  Reading a field through
a nil pointer panics. -/
def getSystemConfig (intSize : Nat) (host : Host) : Except Panic PCConfig :=
  let (cores, err) := host.cpuCounts true
  let cores := if err.isSome then 0 else cores
  let clockSpeed := Float64.zero
  let (cpuInfo, err) := host.cpuInfo
  let clockSpeed :=
    match err, cpuInfo with
    | none, first :: _ => Float64.div first.Mhz (Float64.ofQuotient false 1000 1)
    | _, _ => clockSpeed
  let (vm, _) := host.memVirtualMemory
  match vm with
  | none => .error .nilPointerDereference
  | some vm =>
    let memory := toInt intSize (vm.Total.val / (1024 * 1024 * 1024))
    let (diskInfo, _) := host.diskUsage "/"
    match diskInfo with
    | none => .error .nilPointerDereference
    | some diskInfo =>
      let diskSpace := toInt intSize (diskInfo.Free.val / (1024 * 1024 * 1024))
      .ok
        { Cores := cores
          ClockSpeedGHz := clockSpeed
          MemoryGB := memory
          DiskSpaceGB := diskSpace }

/-- An inbound request, as the handler could read it. -/
structure Request where
  Method : String
  Path : String
  Header : List (String × List String)
  Body : String
  deriving DecidableEq, Repr

/-- The response body written so far. -/
structure ResponseWriter where
  body : String
  deriving DecidableEq, Repr

set_option linter.unusedVariables false in
/-- The function `checkSystemHandler`: the response writer after the call, or the panic
that leaves `getSystemConfig`. -/
def checkSystemHandler (intSize : Nat) (host : Host) (w : ResponseWriter) (r : Request) :
    Except Panic ResponseWriter :=
  match getSystemConfig intSize host with
  | .error p => .error p
  | .ok config =>
    let result := checkSystemHandler_result config
    .ok { body := w.body ++ render result }

/-! ## Auxiliary definitions for the statements below -/

/-- The document up to the first message line: the title and the header line. -/
def docHead : String :=
  "\n<!DOCTYPE html>\n<html>\n<head>\n\t<title>UFirst - Проверка конфигурации ПК</title>\n</head>\n<body>\n\t<h1>UFirst - Проверка конфигурации ПК</h1>\n"

/-- The document after the last message line. -/
def docTail : String := "</body>\n</html>\n"

/-- No occurrence of `pat` begins in a text and runs past its end: at every place of the
text, either `pat` is matched within the text or it has already failed to match. -/
def straddleFree (pat : List Char) : List Char → Bool
  | [] => true
  | c :: s => (pat.isPrefixOf (c :: s) || !(c :: s).isPrefixOf pat) && straddleFree pat s

/-- A host on which all four queries succeed: 8 logical cores, 2100 MHz, 16 GiB of memory,
100 GiB free on the root volume. -/
def hostOK : Host :=
  { cpuCounts := fun _ => (8, none)
    cpuInfo := ([{ Mhz := Float64.ofQuotient false 2100 1 }], none)
    memVirtualMemory := (some { Total := ⟨17179869184, by decide⟩ }, none)
    diskUsage := fun _ => (some { Free := ⟨107374182400, by decide⟩ }, none) }

/-- The host `hostOK` with a failing core-count query. -/
def hostCountsFail : Host :=
  { hostOK with cpuCounts := fun _ => (0, some "cpu counts: not implemented yet") }

/-- The host `hostOK` with a failing memory query: a nil pointer and an error. -/
def hostMemFail : Host :=
  { hostOK with memVirtualMemory := (none, some "open /proc/meminfo: permission denied") }

/-- The host `hostOK` with a failing disk query: a nil pointer and an error. -/
def hostDiskFail : Host :=
  { hostOK with diskUsage := fun _ => (none, some "no such file or directory") }

/-- The host `hostOK` with 2 ^ 61 bytes of memory. -/
def hostHugeMemory : Host :=
  { hostOK with
    memVirtualMemory := (some { Total := ⟨2305843009213693952, by decide⟩ }, none) }

/-- The host `hostOK` with a second CPU descriptor, of 3500 MHz. -/
def hostTwoCPUs : Host :=
  { hostOK with
    cpuInfo := ([{ Mhz := Float64.ofQuotient false 2100 1 },
      { Mhz := Float64.ofQuotient false 3500 1 }], none) }

/-- The host `hostOK` whose first CPU descriptor reports a NaN frequency. -/
def hostNaN : Host :=
  { hostOK with cpuInfo := ([{ Mhz := Float64.nan }], none) }

/-- A plain request for the root path. -/
def requestGet : Request := { Method := "GET", Path := "/", Header := [], Body := "" }

/-- A second request, differing from `requestGet` in every part. -/
def requestPost : Request :=
  { Method := "POST", Path := "/admin?x=1", Header := [("X-Cores", ["64"])], Body := "cores=64" }

/-! ## Facts about the comparisons -/

theorem Float64.lt_eq_false_of_ge {x y : Float64} (h : Float64.ge x y = true) :
    Float64.lt x y = false := by
  cases x <;> cases y <;> simp_all [Float64.ge, Float64.lt]

theorem Float64.ge_nan_left (y : Float64) : Float64.ge Float64.nan y = false := by
  cases y <;> rfl

theorem Float64.lt_nan_left (y : Float64) : Float64.lt Float64.nan y = false := by
  cases y <;> rfl

theorem Float64.lt_or_ge_of_ne_nan {x y : Float64} (hx : x ≠ Float64.nan) (hy : y ≠ Float64.nan) :
    Float64.lt x y = true ∨ Float64.ge x y = true := by
  cases x <;> cases y <;> simp_all [Float64.ge, Float64.lt] <;> omega

theorem checkSystemHandler_result_pass (config : PCConfig)
    (h : 4 ≤ config.Cores ∧ Float64.ge config.ClockSpeedGHz (Float64.ofQuotient false 21 10) = true ∧
      6 ≤ config.MemoryGB ∧ 20 ≤ config.DiskSpaceGB) :
    checkSystemHandler_result config =
      { MeetsRequirements := true, Message := "Ваш ПК удовлетворяет требованиям." } := by
  obtain ⟨h1, h2, h3, h4⟩ := h
  simp [checkSystemHandler_result, required, h1, h2, h3, h4]

theorem checkSystemHandler_result_fail (config : PCConfig)
    (h : ¬ (4 ≤ config.Cores ∧ Float64.ge config.ClockSpeedGHz (Float64.ofQuotient false 21 10) = true ∧
      6 ≤ config.MemoryGB ∧ 20 ≤ config.DiskSpaceGB)) :
    checkSystemHandler_result config =
      { MeetsRequirements := false
        Message := "Ваш ПК не удовлетворяет требованиям."
        MessageBecause := "Это произошло из-за:"
        Message2 := if config.Cores < 4 then "Недостаточно ядер процессора" else ""
        Message3 :=
          if Float64.lt config.ClockSpeedGHz (Float64.ofQuotient false 21 10) = true then
            "Недостаточно тактовой частоты"
          else ""
        Message4 := if config.MemoryGB < 6 then "Недостаточно оперативной памяти" else ""
        Message5 := if config.DiskSpaceGB < 20 then "Недостаточно места диске" else "" } := by
  have h' : (decide (config.Cores ≥ required.Cores) &&
      Float64.ge config.ClockSpeedGHz required.ClockSpeedGHz &&
      decide (config.MemoryGB ≥ required.MemoryGB) &&
      decide (config.DiskSpaceGB ≥ required.DiskSpaceGB)) = false := by
    simp only [required, Bool.and_eq_false_iff, decide_eq_false_iff_not, ge_iff_le]
    simp only [not_and_or] at h
    rcases h with h | h | h | h
    · exact Or.inl (Or.inl (Or.inl h))
    · exact Or.inl (Or.inl (Or.inr (by simpa using h)))
    · exact Or.inl (Or.inr h)
    · exact Or.inr h
  unfold checkSystemHandler_result
  rw [h']
  simp only [required, Bool.false_eq_true, if_false]
  split_ifs <;> rfl

theorem meets_iff_all_ge (config : PCConfig) :
    (checkSystemHandler_result config).MeetsRequirements = true ↔
      (4 ≤ config.Cores ∧
        Float64.ge config.ClockSpeedGHz (Float64.ofQuotient false 21 10) = true ∧
        6 ≤ config.MemoryGB ∧ 20 ≤ config.DiskSpaceGB) := by
  by_cases h : 4 ≤ config.Cores ∧
      Float64.ge config.ClockSpeedGHz (Float64.ofQuotient false 21 10) = true ∧
      6 ≤ config.MemoryGB ∧ 20 ≤ config.DiskSpaceGB
  · rw [checkSystemHandler_result_pass config h]
    exact ⟨fun _ => h, fun _ => rfl⟩
  · rw [checkSystemHandler_result_fail config h]
    exact ⟨fun hf => absurd hf Bool.false_ne_true, fun hp => absurd hp h⟩

theorem slot_nonempty_iff_lt (config : PCConfig) :
    ((checkSystemHandler_result config).Message2 ≠ "" ↔ config.Cores < 4) ∧
    ((checkSystemHandler_result config).Message3 ≠ "" ↔
      Float64.lt config.ClockSpeedGHz (Float64.ofQuotient false 21 10) = true) ∧
    ((checkSystemHandler_result config).Message4 ≠ "" ↔ config.MemoryGB < 6) ∧
    ((checkSystemHandler_result config).Message5 ≠ "" ↔ config.DiskSpaceGB < 20) := by
  by_cases h : 4 ≤ config.Cores ∧
      Float64.ge config.ClockSpeedGHz (Float64.ofQuotient false 21 10) = true ∧
      6 ≤ config.MemoryGB ∧ 20 ≤ config.DiskSpaceGB
  · rw [checkSystemHandler_result_pass config h]
    obtain ⟨h1, h2, h3, h4⟩ := h
    have h2' := Float64.lt_eq_false_of_ge h2
    refine ⟨⟨fun hf => absurd rfl hf, fun hc => ?_⟩, ⟨fun hf => absurd rfl hf, fun hc => ?_⟩,
      ⟨fun hf => absurd rfl hf, fun hc => ?_⟩, ⟨fun hf => absurd rfl hf, fun hc => ?_⟩⟩
    · omega
    · rw [h2'] at hc
      exact absurd hc (by decide)
    · omega
    · omega
  · rw [checkSystemHandler_result_fail config h]
    refine ⟨?_, ?_, ?_, ?_⟩
    · by_cases hc : config.Cores < 4
      · simp only [hc, if_true, iff_true]
        decide
      · simp [hc]
    · by_cases hc : Float64.lt config.ClockSpeedGHz (Float64.ofQuotient false 21 10) = true
      · simp only [hc, if_true, iff_true]
        decide
      · simp [hc]
    · by_cases hc : config.MemoryGB < 6
      · simp only [hc, if_true, iff_true]
        decide
      · simp [hc]
    · by_cases hc : config.DiskSpaceGB < 20
      · simp only [hc, if_true, iff_true]
        decide
      · simp [hc]

/-! ## The order of `float64` and the exact values -/

theorem Float64.mag_lt_pow (e : Fin 2047) (f : Fin (2 ^ 52)) :
    Float64.mantissa e f * 2 ^ Float64.exponent e < 2 ^ 52 * 2 ^ e.val := by
  have hf := f.isLt
  unfold Float64.mantissa Float64.exponent
  by_cases he : e.val = 0
  · simp only [he, if_true]
    omega
  · simp only [he, if_false]
    have hpos : 0 < 2 ^ (e.val - 1) := Nat.two_pow_pos _
    have hsplit : 2 ^ e.val = 2 * 2 ^ (e.val - 1) := by
      rw [← Nat.pow_succ']
      congr 1
      omega
    rw [hsplit]
    have : (2 ^ 52 + f.val) * 2 ^ (e.val - 1) < (2 ^ 52 * 2) * 2 ^ (e.val - 1) :=
      Nat.mul_lt_mul_of_pos_right (by omega) hpos
    calc (2 ^ 52 + f.val) * 2 ^ (e.val - 1) < (2 ^ 52 * 2) * 2 ^ (e.val - 1) := this
      _ = 2 ^ 52 * (2 * 2 ^ (e.val - 1)) := by ring

theorem Float64.pow_le_mag (e : Fin 2047) (f : Fin (2 ^ 52)) (he : e.val ≠ 0) :
    2 ^ 52 * 2 ^ (e.val - 1) ≤ Float64.mantissa e f * 2 ^ Float64.exponent e := by
  unfold Float64.mantissa Float64.exponent
  simp only [he, if_false]
  exact Nat.mul_le_mul_right _ (Nat.le_add_right _ _)

/-- The encoding is monotone on magnitudes: a smaller bit pattern is a smaller magnitude. -/
theorem Float64.mag_strictMono (e e' : Fin 2047) (f f' : Fin (2 ^ 52))
    (h : e.val * 2 ^ 52 + f.val < e'.val * 2 ^ 52 + f'.val) :
    Float64.mantissa e f * 2 ^ Float64.exponent e <
      Float64.mantissa e' f' * 2 ^ Float64.exponent e' := by
  have hf := f.isLt
  have hf' := f'.isLt
  rcases Nat.lt_trichotomy e.val e'.val with hlt | heq | hgt
  · have h1 := Float64.mag_lt_pow e f
    have h2 := Float64.pow_le_mag e' f' (by omega)
    have h3 : 2 ^ e.val ≤ 2 ^ (e'.val - 1) := Nat.pow_le_pow_right (by decide) (by omega)
    calc Float64.mantissa e f * 2 ^ Float64.exponent e < 2 ^ 52 * 2 ^ e.val := h1
      _ ≤ 2 ^ 52 * 2 ^ (e'.val - 1) := Nat.mul_le_mul_left _ h3
      _ ≤ _ := h2
  · have hff : f.val < f'.val := by omega
    unfold Float64.mantissa Float64.exponent
    rw [heq]
    apply Nat.mul_lt_mul_of_pos_right _ (Nat.two_pow_pos _)
    split_ifs <;> omega
  · exfalso
    have : (e'.val + 1) * 2 ^ 52 ≤ e.val * 2 ^ 52 := Nat.mul_le_mul_right _ hgt
    omega

theorem Float64.mag_lt_iff (e e' : Fin 2047) (f f' : Fin (2 ^ 52)) :
    e.val * 2 ^ 52 + f.val < e'.val * 2 ^ 52 + f'.val ↔
      Float64.mantissa e f * 2 ^ Float64.exponent e <
        Float64.mantissa e' f' * 2 ^ Float64.exponent e' := by
  constructor
  · exact Float64.mag_strictMono e e' f f'
  · intro h
    by_contra hn
    rcases Nat.lt_or_eq_of_le (Nat.le_of_not_lt hn) with hlt | heq
    · have := Float64.mag_strictMono e' e f' f hlt
      omega
    · have hf := f.isLt
      have hf' := f'.isLt
      have he : e'.val = e.val := by omega
      have hfe : f'.val = f.val := by omega
      have e1 : e' = e := Fin.ext he
      have e2 : f' = f := Fin.ext hfe
      subst e1 e2
      exact absurd h (lt_irrefl _)

/-- The exact value of a finite double as an integer over `2 ^ 1074`. -/
theorem Float64.toRat_finite (neg : Bool) (e : Fin 2047) (f : Fin (2 ^ 52)) :
    Float64.toRat (Float64.finite neg e f) =
      (((if neg then -((Float64.mantissa e f * 2 ^ Float64.exponent e : Nat) : Int)
        else ((Float64.mantissa e f * 2 ^ Float64.exponent e : Nat) : Int) : Int) : ℚ)) /
        2 ^ 1074 := by
  cases neg <;> simp [Float64.toRat]

/-- On finite doubles the order of the keys is the order of the exact values. -/
theorem Float64.key_lt_iff_toRat_lt (s t : Bool) (e e' : Fin 2047) (f f' : Fin (2 ^ 52)) :
    (Float64.finite s e f).key < (Float64.finite t e' f').key ↔
      (Float64.finite s e f).toRat < (Float64.finite t e' f').toRat := by
  rw [Float64.toRat_finite, Float64.toRat_finite,
    div_lt_div_iff_of_pos_right (by positivity : (0 : ℚ) < 2 ^ 1074), Int.cast_lt]
  have h1 := Float64.mag_lt_iff e e' f f'
  have h2 := Float64.mag_lt_iff e' e f' f
  have h3 := Float64.mag_lt_iff 0 e 0 f
  have h4 := Float64.mag_lt_iff 0 e' 0 f'
  have z : Float64.mantissa 0 0 * 2 ^ Float64.exponent 0 = 0 := by decide
  rw [z] at h3 h4
  simp only [Fin.val_zero, Nat.zero_mul, Nat.zero_add] at h3 h4
  simp only [Float64.key]
  generalize Float64.mantissa e f * 2 ^ Float64.exponent e = m at *
  generalize Float64.mantissa e' f' * 2 ^ Float64.exponent e' = m' at *
  cases s <;> cases t <;> simp only [if_true, if_false, Bool.false_eq_true] <;> omega

/-- Go's `<` on finite doubles is the order of the exact values. -/
theorem Float64.lt_finite_iff (s t : Bool) (e e' : Fin 2047) (f f' : Fin (2 ^ 52)) :
    Float64.lt (Float64.finite s e f) (Float64.finite t e' f') = true ↔
      (Float64.finite s e f).toRat < (Float64.finite t e' f').toRat := by
  rw [← Float64.key_lt_iff_toRat_lt]
  simp [Float64.lt]

/-- Go's `>=` on finite doubles is the order of the exact values. -/
theorem Float64.ge_finite_iff (s t : Bool) (e e' : Fin 2047) (f f' : Fin (2 ^ 52)) :
    Float64.ge (Float64.finite s e f) (Float64.finite t e' f') = true ↔
      (Float64.finite t e' f').toRat ≤ (Float64.finite s e f).toRat := by
  rw [← not_lt, ← Float64.key_lt_iff_toRat_lt]
  simp [Float64.ge]

/-- The constant 2.1 is the double with the bits 0x4000CCCCCCCCCCCD. -/
theorem required_clock_bits :
    Float64.ofQuotient false 21 10 =
      Float64.finite false ⟨1024, by decide⟩ ⟨0xCCCCCCCCCCCD, by decide⟩ := by
  decide

/-- The double 2.1 is no less than the real number 2.1, and the next double below it is
less: no double lies between the real number and the constant. -/
theorem Float64.required_clock_bracket :
    (21 / 10 : ℚ) ≤
        (Float64.finite false ⟨1024, by decide⟩ ⟨0xCCCCCCCCCCCD, by decide⟩).toRat ∧
      (Float64.finite false ⟨1024, by decide⟩ ⟨0xCCCCCCCCCCCC, by decide⟩).toRat <
        (21 / 10 : ℚ) := by
  have h : (2 : ℚ) ^ 1074 = 2 ^ 1023 * 2 ^ 51 := by rw [← pow_add]
  have hpos : (0 : ℚ) < 2 ^ 1023 := by positivity
  simp only [Float64.toRat, Float64.mantissa, Float64.exponent, h]
  constructor
  · rw [le_div_iff₀ (by positivity)]
    norm_num
  · rw [div_lt_iff₀ (by positivity)]
    norm_num

/-- Against the threshold, Go's `>=` on a finite clock speed is `2.1 ≤` on its exact value. -/
theorem Float64.ge_required_iff (neg : Bool) (e : Fin 2047) (f : Fin (2 ^ 52)) :
    Float64.ge (Float64.finite neg e f) (Float64.ofQuotient false 21 10) = true ↔
      (21 / 10 : ℚ) ≤ (Float64.finite neg e f).toRat := by
  rw [required_clock_bits, Float64.ge_finite_iff]
  obtain ⟨hc, hp⟩ := Float64.required_clock_bracket
  constructor
  · intro h
    exact le_trans hc h
  · intro h
    by_contra hn
    have hlt := (Float64.key_lt_iff_toRat_lt neg false e
      ⟨1024, by decide⟩ f ⟨0xCCCCCCCCCCCD, by decide⟩).2 (lt_of_not_le hn)
    have hle : ¬ (Float64.finite false ⟨1024, by decide⟩ ⟨0xCCCCCCCCCCCC, by decide⟩).key <
        (Float64.finite neg e f).key := by
      simp only [Float64.key] at hlt ⊢
      cases neg <;> simp only [if_true, if_false, Bool.false_eq_true] at hlt ⊢ <;> omega
    rw [Float64.key_lt_iff_toRat_lt] at hle
    exact absurd (lt_of_le_of_lt h (lt_of_le_of_lt (le_of_not_lt hle) hp)) (lt_irrefl _)

/-- Against the threshold, Go's `<` on a finite clock speed is `< 2.1` on its exact value. -/
theorem Float64.lt_required_iff (neg : Bool) (e : Fin 2047) (f : Fin (2 ^ 52)) :
    Float64.lt (Float64.finite neg e f) (Float64.ofQuotient false 21 10) = true ↔
      (Float64.finite neg e f).toRat < (21 / 10 : ℚ) := by
  rw [← not_le, ← Float64.ge_required_iff, required_clock_bits]
  simp [Float64.lt, Float64.ge]

/-! ## Rounding: the quotient by 1000 is the nearest double -/

theorem Float64.log2Fuel_spec : ∀ (fuel n : Nat), 0 < n → n ≤ fuel →
    2 ^ Float64.log2Fuel fuel n ≤ n ∧ n < 2 ^ (Float64.log2Fuel fuel n + 1) := by
  intro fuel
  induction fuel with
  | zero => intro n h0 h1; omega
  | succ k ih =>
    intro n h0 h1
    unfold Float64.log2Fuel
    by_cases h2 : n < 2
    · simp only [h2, if_true]
      omega
    · simp only [h2, if_false]
      obtain ⟨a, b⟩ := ih (n / 2) (by omega) (by omega)
      rw [Nat.pow_succ, Nat.pow_succ]
      constructor <;> omega

theorem Float64.log2_spec (n : Nat) (h : 0 < n) :
    2 ^ Float64.log2 n ≤ n ∧ n < 2 ^ (Float64.log2 n + 1) :=
  Float64.log2Fuel_spec n n h (le_refl n)

theorem Float64.pow2Le_iff (k : Int) (n d : Nat) (hd : 0 < d) :
    Float64.pow2Le k n d = true ↔ (2 : ℚ) ^ k ≤ (n : ℚ) / d := by
  have hdq : (0 : ℚ) < d := by exact_mod_cast hd
  unfold Float64.pow2Le
  by_cases hk : 0 ≤ k
  · obtain ⟨j, rfl⟩ := Int.eq_ofNat_of_zero_le hk
    simp only [hk, if_true, Int.toNat_ofNat, decide_eq_true_eq, zpow_natCast]
    rw [le_div_iff₀ hdq]
    constructor
    · intro h
      have : ((d * 2 ^ j : Nat) : ℚ) ≤ (n : ℚ) := by exact_mod_cast h
      push_cast at this
      linarith
    · intro h
      have : ((d * 2 ^ j : Nat) : ℚ) ≤ (n : ℚ) := by push_cast; linarith
      exact_mod_cast this
  · obtain ⟨j, hj⟩ : ∃ j : Nat, k = -(j : Int) := ⟨(-k).toNat, by omega⟩
    subst hj
    have hneg : (-(-(j : Int))).toNat = j := by simp
    simp only [hk, if_false, hneg, decide_eq_true_eq, zpow_neg, zpow_natCast]
    rw [le_div_iff₀ hdq, inv_mul_le_iff₀ (by positivity)]
    constructor
    · intro h
      have : ((d : Nat) : ℚ) ≤ ((n * 2 ^ j : Nat) : ℚ) := by exact_mod_cast h
      push_cast at this
      linarith
    · intro h
      have : ((d : Nat) : ℚ) ≤ ((n * 2 ^ j : Nat) : ℚ) := by push_cast; linarith
      exact_mod_cast this

theorem Float64.floorLog2_spec (n d : Nat) (hn : 0 < n) (hd : 0 < d) :
    (2 : ℚ) ^ Float64.floorLog2 n d ≤ (n : ℚ) / d ∧
      (n : ℚ) / d < (2 : ℚ) ^ (Float64.floorLog2 n d + 1) := by
  have hdq : (0 : ℚ) < d := by exact_mod_cast hd
  obtain ⟨a1, a2⟩ := Float64.log2_spec n hn
  obtain ⟨b1, b2⟩ := Float64.log2_spec d hd
  have a1q : (2 : ℚ) ^ Float64.log2 n ≤ n := by exact_mod_cast a1
  have a2q : (n : ℚ) < 2 ^ (Float64.log2 n + 1) := by exact_mod_cast a2
  have b1q : (2 : ℚ) ^ Float64.log2 d ≤ d := by exact_mod_cast b1
  have b2q : (d : ℚ) < 2 ^ (Float64.log2 d + 1) := by exact_mod_cast b2
  have two : (2 : ℚ) ≠ 0 := by norm_num
  have hup : (n : ℚ) / d <
      (2 : ℚ) ^ ((Float64.log2 n : Int) - (Float64.log2 d : Int) + 1) := by
    have e : (2 : ℚ) ^ ((Float64.log2 n : Int) - (Float64.log2 d : Int) + 1) =
        2 ^ (Float64.log2 n + 1) / 2 ^ Float64.log2 d := by
      rw [show (Float64.log2 n : Int) - (Float64.log2 d : Int) + 1 =
        ((Float64.log2 n + 1 : Nat) : Int) - ((Float64.log2 d : Nat) : Int) by push_cast; ring,
        zpow_sub₀ two, zpow_natCast, zpow_natCast]
    rw [e, div_lt_div_iff₀ hdq (by positivity)]
    have hpos : (0 : ℚ) < 2 ^ (Float64.log2 n + 1) := by positivity
    nlinarith
  have hlow : (2 : ℚ) ^ ((Float64.log2 n : Int) - (Float64.log2 d : Int) - 1) ≤
      (n : ℚ) / d := by
    have e : (2 : ℚ) ^ ((Float64.log2 n : Int) - (Float64.log2 d : Int) - 1) =
        2 ^ Float64.log2 n / 2 ^ (Float64.log2 d + 1) := by
      rw [show (Float64.log2 n : Int) - (Float64.log2 d : Int) - 1 =
        ((Float64.log2 n : Nat) : Int) - ((Float64.log2 d + 1 : Nat) : Int) by push_cast; ring,
        zpow_sub₀ two, zpow_natCast, zpow_natCast]
    rw [e, div_le_div_iff₀ (by positivity) hdq]
    have hpos : (0 : ℚ) < 2 ^ Float64.log2 n := by positivity
    nlinarith
  unfold Float64.floorLog2
  by_cases hp : Float64.pow2Le ((Float64.log2 n : Int) - (Float64.log2 d : Int)) n d = true
  · simp only [hp, if_true]
    exact ⟨(Float64.pow2Le_iff _ n d hd).1 hp, hup⟩
  · simp only [hp, if_false]
    refine ⟨hlow, ?_⟩
    rw [Float64.pow2Le_iff _ n d hd, not_le] at hp
    simpa using hp

theorem Float64.roundHalfEven_spec (n d : Nat) (hd : 0 < d) :
    |((Float64.roundHalfEven n d : Nat) : ℚ) - (n : ℚ) / d| ≤ 1 / 2 ∧
      (|((Float64.roundHalfEven n d : Nat) : ℚ) - (n : ℚ) / d| = 1 / 2 →
        Float64.roundHalfEven n d % 2 = 0) := by
  have hdq : (0 : ℚ) < d := by exact_mod_cast hd
  have hsplit : (n : ℚ) / d = ((n / d : Nat) : ℚ) + ((n % d : Nat) : ℚ) / d := by
    have h := Nat.div_add_mod n d
    have hq : (d : ℚ) * ((n / d : Nat) : ℚ) + ((n % d : Nat) : ℚ) = n := by exact_mod_cast h
    field_simp
    linarith
  have hr : n % d < d := Nat.mod_lt n hd
  have hr0 : (0 : ℚ) ≤ ((n % d : Nat) : ℚ) / d := by positivity
  unfold Float64.roundHalfEven
  simp only
  rw [hsplit]
  generalize n / d = q at *
  generalize hrr : n % d = r at *
  by_cases c1 : 2 * r < d
  · have c1q : 2 * (r : ℚ) < d := by exact_mod_cast c1
    have hlt : (r : ℚ) / d < 1 / 2 := by rw [div_lt_iff₀ hdq]; linarith
    simp only [c1, if_true]
    have e : (q : ℚ) - (q + r / d) = -(r / d) := by ring
    rw [e, abs_neg, abs_of_nonneg hr0]
    exact ⟨le_of_lt hlt, fun h => absurd h (ne_of_lt hlt)⟩
  · simp only [c1, if_false]
    by_cases c2 : d < 2 * r
    · have c2q : (d : ℚ) < 2 * r := by exact_mod_cast c2
      have hrq : (r : ℚ) < d := by exact_mod_cast hr
      have hgt : 1 / 2 < (r : ℚ) / d := by rw [lt_div_iff₀ hdq]; linarith
      have hle : (r : ℚ) / d < 1 := by rw [div_lt_iff₀ hdq]; linarith
      simp only [c2, if_true]
      have e : ((q + 1 : Nat) : ℚ) - (q + r / d) = 1 - r / d := by push_cast; ring
      rw [e, abs_of_nonneg (by linarith)]
      exact ⟨by linarith, fun h => by linarith⟩
    · simp only [c2, if_false]
      have heq : d = 2 * r := by omega
      have heqq : (d : ℚ) = 2 * r := by exact_mod_cast heq
      have hrpos : (0 : ℚ) < r := by linarith
      have hhalf : (r : ℚ) / d = 1 / 2 := by
        rw [heqq, div_eq_iff (by positivity)]
        ring
      by_cases c3 : q % 2 = 0
      · simp only [c3, if_true]
        have e : (q : ℚ) - (q + r / d) = -(r / d) := by ring
        rw [e, abs_neg, abs_of_nonneg hr0, hhalf]
        exact ⟨le_refl _, fun _ => trivial⟩
      · simp only [c3, if_false]
        have e : ((q + 1 : Nat) : ℚ) - (q + r / d) = 1 - r / d := by push_cast; ring
        have habs : |(1 : ℚ) - 1 / 2| = 1 / 2 := by
          rw [abs_of_nonneg (by norm_num)]
          norm_num
        rw [e, hhalf, habs]
        exact ⟨le_refl _, fun _ => by omega⟩

theorem Float64.nearest_int (Q : ℚ) (m : Nat) (hm : |(m : ℚ) - Q| ≤ 1 / 2) (j : Int) :
    |(m : ℚ) - Q| ≤ |(j : ℚ) - Q| ∧
      (|(j : ℚ) - Q| = |(m : ℚ) - Q| → (j : ℚ) ≠ m → |(m : ℚ) - Q| = 1 / 2) := by
  obtain ⟨h1, h2⟩ := abs_le.1 hm
  rcases lt_trichotomy j (m : Int) with hlt | heq | hgt
  · have hj : (j : ℚ) ≤ (m : ℚ) - 1 := by
      have : j ≤ (m : Int) - 1 := by omega
      exact_mod_cast this
    have habs : |(j : ℚ) - Q| = Q - j := by
      rw [abs_of_nonpos (by linarith)]
      ring
    rw [habs]
    refine ⟨by linarith, fun he _ => le_antisymm hm ?_⟩
    rw [← he]
    linarith
  · subst heq
    refine ⟨?_, fun _ hne => absurd ?_ hne⟩
    · simp
    · simp
  · have hj : (m : ℚ) + 1 ≤ (j : ℚ) := by
      have : (m : Int) + 1 ≤ j := by omega
      exact_mod_cast this
    have habs : |(j : ℚ) - Q| = j - Q := abs_of_nonneg (by linarith)
    rw [habs]
    refine ⟨by linarith, fun he _ => le_antisymm hm ?_⟩
    rw [← he]
    linarith

theorem Float64.nearest_core (Q : ℚ) (m : Nat) (hQ : 0 ≤ Q) (hm : |(m : ℚ) - Q| ≤ 1 / 2)
    (z : ℚ) (hz : z < 0 ∨ (∃ j : Int, z = j) ∨ (z < 2 ^ 52 ∧ 2 ^ 52 ≤ Q)) :
    |(m : ℚ) - Q| ≤ |z - Q| ∧
      (|z - Q| = |(m : ℚ) - Q| → z ≠ m → |(m : ℚ) - Q| = 1 / 2) := by
  rcases hz with hneg | ⟨j, rfl⟩ | ⟨hlt, hge⟩
  · have h0 := (Float64.nearest_int Q m hm 0).1
    have e0 : |((0 : Int) : ℚ) - Q| = Q := by
      rw [Int.cast_zero, zero_sub, abs_neg, abs_of_nonneg hQ]
    rw [e0] at h0
    have habs : |z - Q| = Q - z := by
      rw [abs_of_nonpos (by linarith)]
      ring
    rw [habs]
    exact ⟨by linarith, fun he _ => by linarith⟩
  · exact Float64.nearest_int Q m hm j
  · have h0 := (Float64.nearest_int Q m hm (2 ^ 52)).1
    have e0 : |(((2 ^ 52 : Int)) : ℚ) - Q| = Q - 2 ^ 52 := by
      rw [abs_of_nonpos (by push_cast; linarith)]
      push_cast
      ring
    rw [e0] at h0
    have habs : |z - Q| = Q - z := by
      rw [abs_of_nonpos (by linarith)]
      ring
    rw [habs]
    exact ⟨by linarith, fun he _ => by linarith⟩

theorem Float64.mag_of_fields (e : Fin 2047) (f : Fin (2 ^ 52)) (E F : Nat)
    (he : e.val = E) (hf : f.val = F) :
    Float64.mantissa e f * 2 ^ Float64.exponent e =
      (if E = 0 then F else 2 ^ 52 + F) * 2 ^ (E - 1) := by
  subst he hf
  rfl

theorem Float64.ofMagBits_mag (neg : Bool) (t m : Nat)
    (hbits : t * 2 ^ 52 + m < 2047 * 2 ^ 52) (hm : m ≤ 2 ^ 53) (hlow : 1 ≤ t → 2 ^ 52 ≤ m) :
    ∃ (e : Fin 2047) (f : Fin (2 ^ 52)),
      Float64.ofMagBits neg (t * 2 ^ 52 + m) = Float64.finite neg e f ∧
      Float64.mantissa e f * 2 ^ Float64.exponent e = m * 2 ^ t ∧ f.val % 2 = m % 2 := by
  unfold Float64.ofMagBits
  rw [dif_pos hbits]
  refine ⟨_, _, rfl, ?_, ?_⟩
  · rcases Nat.lt_or_ge m (2 ^ 52) with h1 | h1
    · have ht : t = 0 := by
        by_contra h
        have := hlow (by omega)
        omega
      subst ht
      rw [Float64.mag_of_fields _ _ 0 m (by show (0 * 2 ^ 52 + m) / 2 ^ 52 = 0; omega)
        (by show (0 * 2 ^ 52 + m) % 2 ^ 52 = m; omega)]
      simp
    · rcases Nat.lt_or_ge m (2 ^ 53) with h2 | h2
      · rw [Float64.mag_of_fields _ _ (t + 1) (m - 2 ^ 52)
          (by show (t * 2 ^ 52 + m) / 2 ^ 52 = t + 1; omega)
          (by show (t * 2 ^ 52 + m) % 2 ^ 52 = m - 2 ^ 52; omega)]
        have hsum : 2 ^ 52 + (m - 2 ^ 52) = m := by omega
        rw [if_neg (Nat.succ_ne_zero t), hsum, Nat.add_sub_cancel]
      · have hm53 : m = 2 ^ 53 := by omega
        subst hm53
        rw [Float64.mag_of_fields _ _ (t + 2) 0
          (by show (t * 2 ^ 52 + 2 ^ 53) / 2 ^ 52 = t + 2; omega)
          (by show (t * 2 ^ 52 + 2 ^ 53) % 2 ^ 52 = 0; omega)]
        rw [if_neg (by omega), show t + 2 - 1 = t + 1 by omega, Nat.pow_succ,
          show (2 : Nat) ^ 53 = 2 ^ 52 * 2 by norm_num]
        ring
  · show (t * 2 ^ 52 + m) % 2 ^ 52 % 2 = m % 2
    omega

theorem Float64.mag_grid (e : Fin 2047) (f : Fin (2 ^ 52)) (t : Nat) :
    (∃ j : Nat, Float64.mantissa e f * 2 ^ Float64.exponent e = j * 2 ^ t) ∨
      (1 ≤ t ∧ Float64.mantissa e f * 2 ^ Float64.exponent e < 2 ^ 52 * 2 ^ t) := by
  rcases le_or_lt t (Float64.exponent e) with h | h
  · left
    refine ⟨Float64.mantissa e f * 2 ^ (Float64.exponent e - t), ?_⟩
    rw [Nat.mul_assoc, ← Nat.pow_add]
    congr 2
    omega
  · right
    have hle : e.val ≤ t := by
      unfold Float64.exponent at h
      omega
    refine ⟨by omega, lt_of_lt_of_le (Float64.mag_lt_pow e f) ?_⟩
    exact Nat.mul_le_mul_left _ (Nat.pow_le_pow_right (by decide) hle)

theorem Float64.roundScaled_spec (n d : Nat) (hd : 0 < d) (u : Int) :
    |(((if 0 ≤ u then Float64.roundHalfEven n (d * 2 ^ u.toNat)
        else Float64.roundHalfEven (n * 2 ^ (-u).toNat) d : Nat)) : ℚ) -
        (n : ℚ) / d / (2 : ℚ) ^ u| ≤ 1 / 2 ∧
      (|(((if 0 ≤ u then Float64.roundHalfEven n (d * 2 ^ u.toNat)
        else Float64.roundHalfEven (n * 2 ^ (-u).toNat) d : Nat)) : ℚ) -
        (n : ℚ) / d / (2 : ℚ) ^ u| = 1 / 2 →
        (if 0 ≤ u then Float64.roundHalfEven n (d * 2 ^ u.toNat)
          else Float64.roundHalfEven (n * 2 ^ (-u).toNat) d) % 2 = 0) := by
  have hdq : (0 : ℚ) < d := by exact_mod_cast hd
  by_cases hu : 0 ≤ u
  · obtain ⟨j, rfl⟩ := Int.eq_ofNat_of_zero_le hu
    simp only [hu, if_true, Int.toNat_ofNat, zpow_natCast]
    have e : (n : ℚ) / d / 2 ^ j = (n : ℚ) / ((d * 2 ^ j : Nat) : ℚ) := by
      push_cast
      rw [div_div]
    rw [e]
    exact Float64.roundHalfEven_spec n (d * 2 ^ j) (Nat.mul_pos hd (Nat.two_pow_pos j))
  · obtain ⟨j, hj⟩ : ∃ j : Nat, u = -(j : Int) := ⟨(-u).toNat, by omega⟩
    subst hj
    have hneg : (-(-(j : Int))).toNat = j := by simp
    simp only [hu, if_false, hneg, zpow_neg, zpow_natCast]
    have e : (n : ℚ) / d / (2 ^ j)⁻¹ = ((n * 2 ^ j : Nat) : ℚ) / (d : ℚ) := by
      push_cast
      field_simp
    rw [e]
    exact Float64.roundHalfEven_spec (n * 2 ^ j) d hd

theorem Float64.nearest_scaled (c Q w : ℚ) (m : Nat) (hc : 0 < c) (hQ : 0 ≤ Q) (hw : 0 ≤ w)
    (hm : |(m : ℚ) - Q| ≤ 1 / 2)
    (hg : (∃ j : Nat, w = j) ∨ (w < 2 ^ 52 ∧ 2 ^ 52 ≤ Q)) (s : ℚ) (hs : s = 1 ∨ s = -1) :
    |c * m - c * Q| ≤ |s * (c * w) - c * Q| ∧
      (|s * (c * w) - c * Q| = |c * m - c * Q| → s * (c * w) ≠ c * m →
        |(m : ℚ) - Q| = 1 / 2) := by
  have e1 : |c * m - c * Q| = c * |(m : ℚ) - Q| := by
    rw [← mul_sub, abs_mul, abs_of_pos hc]
  have e2 : |s * (c * w) - c * Q| = c * |s * w - Q| := by
    rw [show s * (c * w) - c * Q = c * (s * w - Q) by ring, abs_mul, abs_of_pos hc]
  have hz : s * w < 0 ∨ (∃ j : Int, s * w = j) ∨ (s * w < 2 ^ 52 ∧ 2 ^ 52 ≤ Q) := by
    rcases hg with ⟨j, rfl⟩ | ⟨h1, h2⟩
    · right; left
      rcases hs with rfl | rfl
      · exact ⟨(j : Int), by push_cast; ring⟩
      · exact ⟨-(j : Int), by push_cast; ring⟩
    · rcases hs with rfl | rfl
      · right; right
        exact ⟨by linarith, h2⟩
      · rcases eq_or_lt_of_le hw with h0 | h0
        · right; left
          exact ⟨0, by rw [← h0]; simp⟩
        · left
          linarith
  obtain ⟨a, b⟩ := Float64.nearest_core Q m hQ hm (s * w) hz
  rw [e1, e2]
  refine ⟨mul_le_mul_of_nonneg_left a (le_of_lt hc), fun h hne => b ?_ ?_⟩
  · exact mul_left_cancel₀ (ne_of_gt hc) h
  · intro h'
    apply hne
    rw [show s * (c * w) = c * (s * w) by ring, h']

theorem Float64.ofQuotient_eq (neg : Bool) (n d : Nat) (hn : n ≠ 0) :
    Float64.ofQuotient neg n d =
      Float64.ofMagBits neg
        ((max (Float64.floorLog2 n d) (-1022) - 52 + 1074).toNat * 2 ^ 52 +
          (if 0 ≤ max (Float64.floorLog2 n d) (-1022) - 52 then
            Float64.roundHalfEven n (d * 2 ^ (max (Float64.floorLog2 n d) (-1022) - 52).toNat)
          else
            Float64.roundHalfEven
              (n * 2 ^ (-(max (Float64.floorLog2 n d) (-1022) - 52)).toNat) d)) := by
  unfold Float64.ofQuotient
  rw [if_neg hn]

theorem Float64.toRat_sign (neg : Bool) (e : Fin 2047) (f : Fin (2 ^ 52)) :
    (Float64.finite neg e f).toRat =
      (if neg then -1 else 1) *
        (((Float64.mantissa e f * 2 ^ Float64.exponent e : Nat) : ℚ) / 2 ^ 1074) := by
  simp only [Float64.toRat]
  push_cast
  ring

theorem Float64.ofQuotient_roundsTo (neg : Bool) (n d : Nat) (hn : 0 < n) (hd : 0 < d)
    (hq : (n : ℚ) / d < 2 ^ 1023) :
    ∃ (e : Fin 2047) (f : Fin (2 ^ 52)),
      Float64.ofQuotient neg n d = Float64.finite neg e f ∧
      Float64.RoundsTo ((if neg then -1 else 1) * ((n : ℚ) / d)) (Float64.finite neg e f) := by
  have hdq : (0 : ℚ) < d := by exact_mod_cast hd
  have hnq : (0 : ℚ) < n := by exact_mod_cast hn
  have hq0 : (0 : ℚ) < (n : ℚ) / d := div_pos hnq hdq
  have two : (2 : ℚ) ≠ 0 := by norm_num
  obtain ⟨hk1, hk2⟩ := Float64.floorLog2_spec n d hn hd
  rw [Float64.ofQuotient_eq neg n d (Nat.pos_iff_ne_zero.1 hn)]
  generalize Float64.floorLog2 n d = k at hk1 hk2 ⊢
  have hk_le : k ≤ 1022 := by
    by_contra h
    have h' : (1023 : Int) ≤ k := by omega
    have h2 : (2 : ℚ) ^ (1023 : Int) ≤ 2 ^ k := zpow_le_zpow_right₀ (by norm_num) h'
    have e : (2 : ℚ) ^ (1023 : Int) = 2 ^ 1023 := by
      rw [show (1023 : Int) = ((1023 : Nat) : Int) by norm_num, zpow_natCast]
    linarith
  obtain ⟨t, ht⟩ : ∃ t : Nat, (t : Int) = max k (-1022) + 1022 :=
    ⟨(max k (-1022) + 1022).toNat, by omega⟩
  have hu : max k (-1022) - 52 = (t : Int) - 1074 := by omega
  have htn : (max k (-1022) - 52 + 1074).toNat = t := by omega
  rw [htn, hu]
  obtain ⟨hm1, hm2⟩ := Float64.roundScaled_spec n d hd ((t : Int) - 1074)
  generalize (if 0 ≤ (t : Int) - 1074 then
      Float64.roundHalfEven n (d * 2 ^ ((t : Int) - 1074).toNat)
    else Float64.roundHalfEven (n * 2 ^ (-((t : Int) - 1074)).toNat) d) = m at hm1 hm2 ⊢
  have hc : (2 : ℚ) ^ ((t : Int) - 1074) = 2 ^ t / 2 ^ 1074 := by
    rw [show (1074 : Int) = ((1074 : Nat) : Int) by norm_num, zpow_sub₀ two, zpow_natCast,
      zpow_natCast]
  have hcpos : (0 : ℚ) < 2 ^ t / 2 ^ 1074 := by positivity
  rw [hc] at hm1 hm2
  have hQ0 : (0 : ℚ) ≤ (n : ℚ) / d / (2 ^ t / 2 ^ 1074) := le_of_lt (div_pos hq0 hcpos)
  have hQ53 : (n : ℚ) / d / (2 ^ t / 2 ^ 1074) < 2 ^ 53 := by
    rw [div_lt_iff₀ hcpos, ← hc]
    have h1 : (2 : ℚ) ^ (k + 1) ≤ 2 ^ 53 * 2 ^ ((t : Int) - 1074) := by
      rw [show (2 : ℚ) ^ 53 = 2 ^ ((53 : Nat) : Int) by rw [zpow_natCast], ← zpow_add₀ two]
      exact zpow_le_zpow_right₀ (by norm_num) (by push_cast; omega)
    linarith
  have hQ52 : 1 ≤ t → (2 : ℚ) ^ 52 ≤ (n : ℚ) / d / (2 ^ t / 2 ^ 1074) := by
    intro h1
    rw [le_div_iff₀ hcpos, ← hc]
    have h2 : (2 : ℚ) ^ 52 * 2 ^ ((t : Int) - 1074) ≤ 2 ^ k := by
      rw [show (2 : ℚ) ^ 52 = 2 ^ ((52 : Nat) : Int) by rw [zpow_natCast], ← zpow_add₀ two]
      exact zpow_le_zpow_right₀ (by norm_num) (by push_cast; omega)
    linarith
  obtain ⟨hmlo, hmhi⟩ := abs_le.1 hm1
  have hm53 : m ≤ 2 ^ 53 := by
    by_contra h
    have h' : 2 ^ 53 + 1 ≤ m := by omega
    have h'' : ((2 ^ 53 + 1 : Nat) : ℚ) ≤ (m : ℚ) := by exact_mod_cast h'
    push_cast at h''
    linarith
  have hlow : 1 ≤ t → 2 ^ 52 ≤ m := by
    intro h1
    have h2 := hQ52 h1
    by_contra h
    have h' : m + 1 ≤ 2 ^ 52 := by omega
    have h'' : ((m + 1 : Nat) : ℚ) ≤ ((2 ^ 52 : Nat) : ℚ) := by exact_mod_cast h'
    push_cast at h''
    linarith
  have hbits : t * 2 ^ 52 + m < 2047 * 2 ^ 52 := by omega
  obtain ⟨e, f, hr, hmag, hpar⟩ := Float64.ofMagBits_mag neg t m hbits hm53 hlow
  refine ⟨e, f, hr, ?_⟩
  intro τ e' f'
  have hσ : (if neg then (-1 : ℚ) else 1) = 1 ∨ (if neg then (-1 : ℚ) else 1) = -1 := by
    cases neg <;> simp
  have hτ : (if τ then (-1 : ℚ) else 1) = 1 ∨ (if τ then (-1 : ℚ) else 1) = -1 := by
    cases τ <;> simp
  have hpow : (0 : ℚ) < 2 ^ t := by positivity
  have hw0 : (0 : ℚ) ≤
      ((Float64.mantissa e' f' * 2 ^ Float64.exponent e' : Nat) : ℚ) / 2 ^ t :=
    div_nonneg (Nat.cast_nonneg _) (le_of_lt hpow)
  have hg : (∃ j : Nat,
      ((Float64.mantissa e' f' * 2 ^ Float64.exponent e' : Nat) : ℚ) / 2 ^ t = j) ∨
      (((Float64.mantissa e' f' * 2 ^ Float64.exponent e' : Nat) : ℚ) / 2 ^ t < 2 ^ 52 ∧
        (2 : ℚ) ^ 52 ≤ (n : ℚ) / d / (2 ^ t / 2 ^ 1074)) := by
    rcases Float64.mag_grid e' f' t with ⟨j, hj⟩ | ⟨h1, h2⟩
    · left
      refine ⟨j, ?_⟩
      rw [hj, div_eq_iff (ne_of_gt hpow)]
      push_cast
      ring
    · right
      refine ⟨?_, hQ52 h1⟩
      rw [div_lt_iff₀ hpow]
      exact_mod_cast h2
  rw [Float64.toRat_sign neg e f, Float64.toRat_sign τ e' f', hmag]
  generalize (if neg then (-1 : ℚ) else 1) = σ at hσ ⊢
  generalize (if τ then (-1 : ℚ) else 1) = τs at hτ ⊢
  generalize ((Float64.mantissa e' f' * 2 ^ Float64.exponent e' : Nat) : ℚ) = My at hw0 hg ⊢
  generalize hQdef : (n : ℚ) / d / (2 ^ t / 2 ^ 1074) = Q at hm1 hm2 hQ0 hg
  have hnd : (n : ℚ) / d = 2 ^ t / 2 ^ 1074 * Q := by
    rw [← hQdef]
    field_simp
    ring
  have hσσ : σ * σ = 1 := by rcases hσ with h | h <;> rw [h] <;> norm_num
  have hs : σ * τs = 1 ∨ σ * τs = -1 := by
    rcases hσ with h | h <;> rcases hτ with h' | h' <;> rw [h, h'] <;> norm_num
  have habsσ : ∀ x : ℚ, |σ * x| = |x| := by
    intro x
    rcases hσ with h | h <;> rw [h] <;> simp
  obtain ⟨a, b⟩ := Float64.nearest_scaled (2 ^ t / 2 ^ 1074) Q (My / 2 ^ t) m hcpos hQ0 hw0
    hm1 hg (σ * τs) hs
  have er : σ * (((m * 2 ^ t : Nat) : ℚ) / 2 ^ 1074) - σ * ((n : ℚ) / d) =
      σ * (2 ^ t / 2 ^ 1074 * m - 2 ^ t / 2 ^ 1074 * Q) := by
    rw [hnd]
    push_cast
    ring
  have ey : τs * (My / 2 ^ 1074) - σ * ((n : ℚ) / d) =
      σ * (σ * τs * (2 ^ t / 2 ^ 1074 * (My / 2 ^ t)) - 2 ^ t / 2 ^ 1074 * Q) := by
    rw [hnd]
    have : σ * (σ * τs * (2 ^ t / 2 ^ 1074 * (My / 2 ^ t)) - 2 ^ t / 2 ^ 1074 * Q) =
        (σ * σ) * τs * (2 ^ t / 2 ^ 1074 * (My / 2 ^ t)) - σ * (2 ^ t / 2 ^ 1074 * Q) := by
      ring
    rw [this, hσσ]
    field_simp
    ring
  rw [er, ey, habsσ, habsσ]
  refine ⟨a, fun h hne => ?_⟩
  have htie := b h (by
    intro h'
    apply hne
    have e1 : τs * (My / 2 ^ 1074) = σ * (σ * τs * (2 ^ t / 2 ^ 1074 * (My / 2 ^ t))) := by
      have : σ * (σ * τs * (2 ^ t / 2 ^ 1074 * (My / 2 ^ t))) =
          (σ * σ) * τs * (2 ^ t / 2 ^ 1074 * (My / 2 ^ t)) := by ring
      rw [this, hσσ]
      field_simp
      ring
    rw [e1, h']
    push_cast
    ring)
  rw [hpar]
  exact hm2 htie

/-- The constant `1000.0` is the double with the bits 0x408F400000000000. -/
theorem Float64.thousand_bits :
    Float64.ofQuotient false 1000 1 =
      Float64.finite false ⟨1032, by decide⟩ ⟨4292493394837504, by decide⟩ := by
  decide

theorem Float64.div_thousand_finite (s : Bool) (e : Fin 2047) (f : Fin (2 ^ 52)) :
    Float64.div (Float64.finite s e f) (Float64.ofQuotient false 1000 1) =
      if Float64.mantissa e f = 0 then Float64.finite s 0 0
      else
        Float64.ofQuotient s
          (Float64.mantissa e f * 2 ^ (Float64.exponent e - min (Float64.exponent e) 1031))
          (8796093022208000 * 2 ^ (1031 - min (Float64.exponent e) 1031)) := by
  rw [Float64.thousand_bits]
  have hm : Float64.mantissa ⟨1032, by decide⟩ ⟨4292493394837504, by decide⟩ =
      8796093022208000 := by decide
  have he : Float64.exponent ⟨1032, by decide⟩ = 1031 := by decide
  simp only [Float64.div, hm, he, Bool.xor_false]
  by_cases h0 : Float64.mantissa e f = 0
  · simp [h0, Float64.ofQuotient]
  · simp [h0]

/-- Dividing a finite double by `1000.0` gives a finite double of the same sign, which is
the double nearest to the exact quotient, ties to even. -/
theorem Float64.div_thousand_roundsTo (s : Bool) (e : Fin 2047) (f : Fin (2 ^ 52)) :
    ∃ (e' : Fin 2047) (f' : Fin (2 ^ 52)),
      Float64.div (Float64.finite s e f) (Float64.ofQuotient false 1000 1) =
        Float64.finite s e' f' ∧
      Float64.RoundsTo ((Float64.finite s e f).toRat / 1000) (Float64.finite s e' f') := by
  rw [Float64.div_thousand_finite]
  by_cases h0 : Float64.mantissa e f = 0
  · rw [if_pos h0]
    refine ⟨0, 0, rfl, ?_⟩
    have hx : (Float64.finite s e f).toRat = 0 := by
      simp [Float64.toRat, h0]
    have hr : (Float64.finite s 0 0).toRat = 0 := by
      simp [Float64.toRat, Float64.mantissa]
    intro t e' f'
    rw [hx, hr]
    simp only [zero_div, sub_zero, abs_zero]
    refine ⟨abs_nonneg _, fun h hne => absurd (abs_eq_zero.1 h) hne⟩
  · rw [if_neg h0]
    have hlow1 : min (Float64.exponent e) 1031 ≤ Float64.exponent e := min_le_left _ _
    have hlow2 : min (Float64.exponent e) 1031 ≤ 1031 := min_le_right _ _
    generalize min (Float64.exponent e) 1031 = low at hlow1 hlow2 ⊢
    have hA : (2 : ℚ) ^ Float64.exponent e = 2 ^ (Float64.exponent e - low) * 2 ^ low := by
      rw [← pow_add, Nat.sub_add_cancel hlow1]
    have hB : (2 : ℚ) ^ 1031 = 2 ^ (1031 - low) * 2 ^ low := by
      rw [← pow_add, Nat.sub_add_cancel hlow2]
    have hC : (2 : ℚ) ^ 1074 * 1000 = 8796093022208000 * 2 ^ 1031 := by norm_num
    have hLpos : (0 : ℚ) < 2 ^ low := by positivity
    have hbpos : (0 : ℚ) < 2 ^ (1031 - low) := by positivity
    have key : ((Float64.mantissa e f * 2 ^ (Float64.exponent e - low) : Nat) : ℚ) /
        ((8796093022208000 * 2 ^ (1031 - low) : Nat) : ℚ) =
        ((Float64.mantissa e f * 2 ^ Float64.exponent e : Nat) : ℚ) / 2 ^ 1074 / 1000 := by
      rw [div_div, hC, hB]
      push_cast
      rw [hA]
      field_simp
      ring
    have hn : 0 < Float64.mantissa e f * 2 ^ (Float64.exponent e - low) :=
      Nat.mul_pos (Nat.pos_of_ne_zero h0) (Nat.two_pow_pos _)
    have hd : 0 < 8796093022208000 * 2 ^ (1031 - low) :=
      Nat.mul_pos (by decide) (Nat.two_pow_pos _)
    have hmagq : ((Float64.mantissa e f * 2 ^ Float64.exponent e : Nat) : ℚ) < 2 ^ 2098 := by
      have h1 : ((Float64.mantissa e f * 2 ^ Float64.exponent e : Nat) : ℚ) <
          ((2 ^ 52 * 2 ^ e.val : Nat) : ℚ) := by exact_mod_cast Float64.mag_lt_pow e f
      have h2 : (2 : ℚ) ^ e.val ≤ 2 ^ 2046 :=
        pow_le_pow_right₀ (by norm_num) (by have := e.isLt; omega)
      have h3 : ((2 ^ 52 * 2 ^ e.val : Nat) : ℚ) = 2 ^ 52 * 2 ^ e.val := by push_cast; ring
      have h4 : (2 : ℚ) ^ 2098 = 2 ^ 52 * 2 ^ 2046 := by rw [← pow_add]
      rw [h3] at h1
      rw [h4]
      have hp : (0 : ℚ) < 2 ^ 52 := by positivity
      nlinarith
    have hq : ((Float64.mantissa e f * 2 ^ (Float64.exponent e - low) : Nat) : ℚ) /
        ((8796093022208000 * 2 ^ (1031 - low) : Nat) : ℚ) < 2 ^ 1023 := by
      rw [key, div_div, div_lt_iff₀ (by positivity)]
      have h6 : (2 : ℚ) ^ 2098 ≤ 2 ^ 1023 * (2 ^ 1074 * 1000) := by
        rw [show (2 : ℚ) ^ 2098 = 2 ^ 1023 * (2 ^ 1074 * 2) by
          rw [← pow_succ, ← pow_add]]
        have hp : (0 : ℚ) < 2 ^ 1023 * 2 ^ 1074 := by positivity
        nlinarith
      linarith
    obtain ⟨e', f', hr, hround⟩ := Float64.ofQuotient_roundsTo s _ _ hn hd hq
    refine ⟨e', f', hr, ?_⟩
    rw [key] at hround
    rw [Float64.toRat_sign s e f]
    have eq : (if s then (-1 : ℚ) else 1) *
        (((Float64.mantissa e f * 2 ^ Float64.exponent e : Nat) : ℚ) / 2 ^ 1074) / 1000 =
        (if s then (-1 : ℚ) else 1) *
          (((Float64.mantissa e f * 2 ^ Float64.exponent e : Nat) : ℚ) / 2 ^ 1074 / 1000) := by
      ring
    rw [eq]
    exact hround

/-! ## Facts about the rendered document -/

theorem isPrefixOf_append_of_settled (pat : List Char) :
    ∀ (l rest : List Char), (pat.isPrefixOf l || !l.isPrefixOf pat) = true →
      pat.isPrefixOf (l ++ rest) = pat.isPrefixOf l := by
  induction pat with
  | nil => intro l rest _; simp
  | cons p ps ih =>
    intro l rest h
    cases l with
    | nil => simp at h
    | cons c cs =>
      by_cases hpc : p = c
      · subst hpc
        simp only [List.isPrefixOf, beq_self_eq_true, Bool.true_and] at h
        simpa [List.isPrefixOf] using ih cs rest h
      · have hne : (p == c) = false := by simpa using hpc
        simp [List.isPrefixOf, hne]

theorem countOcc_append (pat : List Char) :
    ∀ (t rest : List Char), straddleFree pat t = true →
      countOcc pat (t ++ rest) = countOcc pat t + countOcc pat rest := by
  intro t
  induction t with
  | nil => intro rest _; simp [countOcc]
  | cons c s ih =>
    intro rest h
    simp only [straddleFree, Bool.and_eq_true] at h
    have h1 := isPrefixOf_append_of_settled pat (c :: s) rest h.1
    simp only [List.cons_append] at h1
    rw [List.cons_append, countOcc, countOcc, h1, ih rest h.2]
    omega

theorem countOcc_append_of_no_lt (p : List Char) :
    ∀ (l rest : List Char), (∀ c ∈ l, c ≠ '<') →
      countOcc ('<' :: p) (l ++ rest) = countOcc ('<' :: p) rest := by
  intro l
  induction l with
  | nil => intro rest _; rfl
  | cons c s ih =>
    intro rest h
    have hc : ('<' == c) = false := by
      simpa using fun hc => h c (List.mem_cons_self c s) hc.symm
    have hs : ∀ x ∈ s, x ≠ '<' := fun x hx => h x (List.mem_cons_of_mem c hx)
    simp [countOcc, List.isPrefixOf, hc, ih rest hs]

theorem htmlEscapeChar_no_lt (c x : Char) (hx : x ∈ htmlEscapeChar c) : x ≠ '<' := by
  unfold htmlEscapeChar at hx
  split_ifs at hx with h1 h2 h3 h4 h5 h6 h7
  all_goals first
    | (simp at hx; subst hx; assumption)
    | (simp at hx; rcases hx with rfl | rfl | rfl | rfl | rfl <;> decide)

theorem htmlEscape_no_lt (s : String) : ∀ x ∈ (htmlEscape s).data, x ≠ '<' := by
  intro x hx
  simp only [htmlEscape, List.mem_flatMap] at hx
  obtain ⟨c, _, hc⟩ := hx
  exact htmlEscapeChar_no_lt c x hc

theorem render_eq (data : Result) :
    render data =
      docHead ++ (messageLine data.Message ++ (messageLine data.MessageBecause ++
        (messageLine data.Message2 ++ (messageLine data.Message3 ++
        (messageLine data.Message4 ++ (messageLine data.Message5 ++ docTail)))))) := by
  have h0 : "\n<!DOCTYPE html>\n<html>\n<head>\n\t<title>UFirst - Проверка конфигурации ПК</title>\n</head>\n<body>\n\t<h1>UFirst - Проверка конфигурации ПК</h1>\n\t<h2>" = docHead ++ lineOpen := by decide
  have h1 : "</h2>\n\t<h2>" = lineClose ++ lineOpen := by decide
  have h2 : "</h2>\n</body>\n</html>\n" = lineClose ++ docTail := by decide
  simp only [render, tmpl, List.map, Node.exec, String.join, List.foldl, TmplField.get,
    messageLine, h0, h1, h2, String.append_assoc, String.empty_append]

theorem countOcc_messageLine (p : List Char) (s : String) (rest : List Char)
    (h1 : straddleFree ('<' :: p) lineOpen.data = true)
    (h2 : straddleFree ('<' :: p) lineClose.data = true) :
    countOcc ('<' :: p) ((messageLine s).data ++ rest) =
      countOcc ('<' :: p) lineOpen.data + countOcc ('<' :: p) lineClose.data +
        countOcc ('<' :: p) rest := by
  simp only [messageLine, String.data_append, List.append_assoc]
  rw [countOcc_append _ _ _ h1, countOcc_append_of_no_lt _ _ _ (htmlEscape_no_lt s),
    countOcc_append _ _ _ h2]
  omega

theorem countOcc_render (p : List Char) (data : Result)
    (h0 : straddleFree ('<' :: p) docHead.data = true)
    (h1 : straddleFree ('<' :: p) lineOpen.data = true)
    (h2 : straddleFree ('<' :: p) lineClose.data = true) :
    countOcc ('<' :: p) (render data).data =
      countOcc ('<' :: p) docHead.data +
        6 * (countOcc ('<' :: p) lineOpen.data + countOcc ('<' :: p) lineClose.data) +
        countOcc ('<' :: p) docTail.data := by
  rw [render_eq]
  simp only [String.data_append]
  rw [countOcc_append _ _ _ h0]
  repeat rw [countOcc_messageLine p _ _ h1 h2]
  omega

set_option maxRecDepth 100000 in
theorem elementCount_h2_render (data : Result) : elementCount "h2" (render data) = 6 := by
  have h := countOcc_render "h2>".data data (by decide) (by decide) (by decide)
  have e0 : countOcc ('<' :: "h2>".data) docHead.data = 0 := by decide
  have e1 : countOcc ('<' :: "h2>".data) lineOpen.data = 1 := by decide
  have e2 : countOcc ('<' :: "h2>".data) lineClose.data = 0 := by decide
  have e3 : countOcc ('<' :: "h2>".data) docTail.data = 0 := by decide
  rw [e0, e1, e2, e3] at h
  exact h

set_option maxRecDepth 100000 in
theorem elementCount_h1_render (data : Result) : elementCount "h1" (render data) = 1 := by
  have h := countOcc_render "h1>".data data (by decide) (by decide) (by decide)
  have e0 : countOcc ('<' :: "h1>".data) docHead.data = 1 := by decide
  have e1 : countOcc ('<' :: "h1>".data) lineOpen.data = 0 := by decide
  have e2 : countOcc ('<' :: "h1>".data) lineClose.data = 0 := by decide
  have e3 : countOcc ('<' :: "h1>".data) docTail.data = 0 := by decide
  rw [e0, e1, e2, e3] at h
  exact h

set_option maxRecDepth 100000 in
theorem elementCount_title_render (data : Result) : elementCount "title" (render data) = 1 := by
  have h := countOcc_render "title>".data data (by decide) (by decide) (by decide)
  have e0 : countOcc ('<' :: "title>".data) docHead.data = 1 := by decide
  have e1 : countOcc ('<' :: "title>".data) lineOpen.data = 0 := by decide
  have e2 : countOcc ('<' :: "title>".data) lineClose.data = 0 := by decide
  have e3 : countOcc ('<' :: "title>".data) docTail.data = 0 := by decide
  rw [e0, e1, e2, e3] at h
  exact h

/-! ## Facts about the host queries -/

theorem toInt_of_lt (intSize x : Nat) (h : x < 2 ^ (intSize - 1)) :
    toInt intSize x = (x : Int) := by
  have hle : 2 ^ (intSize - 1) ≤ 2 ^ intSize :=
    Nat.pow_le_pow_right (by decide) (Nat.sub_le intSize 1)
  have hmod : x % 2 ^ intSize = x := Nat.mod_eq_of_lt (lt_of_lt_of_le h hle)
  simp [toInt, hmod, h]

theorem gigabytes_lt (b : Fin (2 ^ 64)) : b.val / (1024 * 1024 * 1024) < 2 ^ 34 := by
  have := b.isLt
  omega

theorem getSystemConfig_ok (intSize : Nat) (host : Host) (vm : VirtualMemoryStat)
    (du : UsageStat) (hm : host.memVirtualMemory.1 = some vm)
    (hd : (host.diskUsage "/").1 = some du) :
    getSystemConfig intSize host = .ok
      { Cores := if (host.cpuCounts true).2.isSome then 0 else (host.cpuCounts true).1
        ClockSpeedGHz :=
          match host.cpuInfo.2, host.cpuInfo.1 with
          | none, first :: _ => Float64.div first.Mhz (Float64.ofQuotient false 1000 1)
          | _, _ => Float64.zero
        MemoryGB := toInt intSize (vm.Total.val / (1024 * 1024 * 1024))
        DiskSpaceGB := toInt intSize (du.Free.val / (1024 * 1024 * 1024)) } := by
  unfold getSystemConfig
  rcases hmv : host.memVirtualMemory with ⟨m, me⟩
  rcases hdu : host.diskUsage "/" with ⟨d, de⟩
  rw [hmv] at hm
  rw [hdu] at hd
  simp only at hm hd
  subst hm hd
  rfl

theorem getSystemConfig_mem_nil (intSize : Nat) (host : Host)
    (hm : host.memVirtualMemory.1 = none) :
    getSystemConfig intSize host = .error .nilPointerDereference := by
  unfold getSystemConfig
  rcases hmv : host.memVirtualMemory with ⟨m, me⟩
  rw [hmv] at hm
  simp only at hm
  subst hm
  rfl

theorem getSystemConfig_disk_nil (intSize : Nat) (host : Host)
    (hd : (host.diskUsage "/").1 = none) :
    getSystemConfig intSize host = .error .nilPointerDereference := by
  unfold getSystemConfig
  rcases hmv : host.memVirtualMemory with ⟨m, me⟩
  rcases hdu : host.diskUsage "/" with ⟨d, de⟩
  rw [hdu] at hd
  simp only at hd
  subst hd
  cases m <;> rfl

/-! ## The properties of the specification -/

/-- C1: for every snapshot, `MeetsRequirements` is true exactly when the cores are at least
4, the clock speed is at least 2.1 (Go's `>=` against the `float64` constant), the memory is
at least 6 and the disk space is at least 20; for a finite clock speed Go's `>=` is
`21 / 10 ≤` on its exact value; the comparison is inclusive, so the snapshot with exactly
the four thresholds passes. -/
theorem meetsRequirements_iff :
    (∀ config : PCConfig,
      (checkSystemHandler_result config).MeetsRequirements = true ↔
        (4 ≤ config.Cores ∧
          Float64.ge config.ClockSpeedGHz (Float64.ofQuotient false 21 10) = true ∧
          6 ≤ config.MemoryGB ∧ 20 ≤ config.DiskSpaceGB)) ∧
      (∀ (cores memory disk : Int) (neg : Bool) (e : Fin 2047) (f : Fin (2 ^ 52)),
        (checkSystemHandler_result
          { Cores := cores, ClockSpeedGHz := Float64.finite neg e f,
            MemoryGB := memory, DiskSpaceGB := disk }).MeetsRequirements = true ↔
          (4 ≤ cores ∧ (21 / 10 : ℚ) ≤ (Float64.finite neg e f).toRat ∧
            6 ≤ memory ∧ 20 ≤ disk)) ∧
      (checkSystemHandler_result
        { Cores := 4, ClockSpeedGHz := Float64.ofQuotient false 21 10,
          MemoryGB := 6, DiskSpaceGB := 20 }).MeetsRequirements = true := by
  refine ⟨fun config => meets_iff_all_ge config, ?_, by decide⟩
  intro cores memory disk neg e f
  rw [meets_iff_all_ge, Float64.ge_required_iff]

/-- C2: for every snapshot, each slot (`Message2` cores, `Message3` clock, `Message4`
memory, `Message5` disk) is non-empty exactly when its dimension is strictly below its
threshold (Go's `<` for the clock, which for a finite clock speed is `< 21 / 10` on its exact
value); with only the cores below (2 cores, 2.1 GHz, 6 GB, 20 GB) only the cores slot is
non-empty, and with all four below (2 cores, 1.0 GHz, 4 GB, 10 GB) all four are. -/
theorem slot_nonempty_iff_below :
    (∀ config : PCConfig,
      ((checkSystemHandler_result config).Message2 ≠ "" ↔ config.Cores < 4) ∧
      ((checkSystemHandler_result config).Message3 ≠ "" ↔
        Float64.lt config.ClockSpeedGHz (Float64.ofQuotient false 21 10) = true) ∧
      ((checkSystemHandler_result config).Message4 ≠ "" ↔ config.MemoryGB < 6) ∧
      ((checkSystemHandler_result config).Message5 ≠ "" ↔ config.DiskSpaceGB < 20)) ∧
      (∀ (cores memory disk : Int) (neg : Bool) (e : Fin 2047) (f : Fin (2 ^ 52)),
        (checkSystemHandler_result
          { Cores := cores, ClockSpeedGHz := Float64.finite neg e f,
            MemoryGB := memory, DiskSpaceGB := disk }).Message3 ≠ "" ↔
          (Float64.finite neg e f).toRat < (21 / 10 : ℚ)) ∧
      ((checkSystemHandler_result
          { Cores := 2, ClockSpeedGHz := Float64.ofQuotient false 21 10,
            MemoryGB := 6, DiskSpaceGB := 20 }).Message2 ≠ "" ∧
        (checkSystemHandler_result
          { Cores := 2, ClockSpeedGHz := Float64.ofQuotient false 21 10,
            MemoryGB := 6, DiskSpaceGB := 20 }).Message3 = "" ∧
        (checkSystemHandler_result
          { Cores := 2, ClockSpeedGHz := Float64.ofQuotient false 21 10,
            MemoryGB := 6, DiskSpaceGB := 20 }).Message4 = "" ∧
        (checkSystemHandler_result
          { Cores := 2, ClockSpeedGHz := Float64.ofQuotient false 21 10,
            MemoryGB := 6, DiskSpaceGB := 20 }).Message5 = "") ∧
      ((checkSystemHandler_result
          { Cores := 2, ClockSpeedGHz := Float64.ofQuotient false 1 1,
            MemoryGB := 4, DiskSpaceGB := 10 }).Message2 ≠ "" ∧
        (checkSystemHandler_result
          { Cores := 2, ClockSpeedGHz := Float64.ofQuotient false 1 1,
            MemoryGB := 4, DiskSpaceGB := 10 }).Message3 ≠ "" ∧
        (checkSystemHandler_result
          { Cores := 2, ClockSpeedGHz := Float64.ofQuotient false 1 1,
            MemoryGB := 4, DiskSpaceGB := 10 }).Message4 ≠ "" ∧
        (checkSystemHandler_result
          { Cores := 2, ClockSpeedGHz := Float64.ofQuotient false 1 1,
            MemoryGB := 4, DiskSpaceGB := 10 }).Message5 ≠ "") := by
  refine ⟨fun config => slot_nonempty_iff_lt config, ?_, by decide, by decide⟩
  intro cores memory disk neg e f
  rw [← Float64.lt_required_iff]
  exact (slot_nonempty_iff_lt _).2.1

/-- C6: for every snapshot, the reason header `MessageBecause` is non-empty exactly when
`MeetsRequirements` is false; when it is true the summary is the positive text and the
reason header and the four slots are empty; when it is false the summary is the negative
text. -/
theorem reason_header_iff_not_meets (config : PCConfig) :
    ((checkSystemHandler_result config).MessageBecause ≠ "" ↔
      (checkSystemHandler_result config).MeetsRequirements = false) ∧
    ((checkSystemHandler_result config).MeetsRequirements = true →
      (checkSystemHandler_result config).Message = "Ваш ПК удовлетворяет требованиям." ∧
      (checkSystemHandler_result config).MessageBecause = "" ∧
      (checkSystemHandler_result config).Message2 = "" ∧
      (checkSystemHandler_result config).Message3 = "" ∧
      (checkSystemHandler_result config).Message4 = "" ∧
      (checkSystemHandler_result config).Message5 = "") ∧
    ((checkSystemHandler_result config).MeetsRequirements = false →
      (checkSystemHandler_result config).Message = "Ваш ПК не удовлетворяет требованиям.") := by
  by_cases h : 4 ≤ config.Cores ∧
      Float64.ge config.ClockSpeedGHz (Float64.ofQuotient false 21 10) = true ∧
      6 ≤ config.MemoryGB ∧ 20 ≤ config.DiskSpaceGB
  · rw [checkSystemHandler_result_pass config h]
    exact ⟨⟨fun hf => absurd rfl hf, fun hf => absurd hf (by decide)⟩,
      fun _ => ⟨rfl, rfl, rfl, rfl, rfl, rfl⟩, fun hf => absurd hf (by decide)⟩
  · rw [checkSystemHandler_result_fail config h]
    have hne : "Это произошло из-за:" ≠ "" := by decide
    exact ⟨⟨fun _ => rfl, fun _ => hne⟩, fun hf => absurd hf Bool.false_ne_true, fun _ => rfl⟩

/-- C10, at the failing input: with 8 cores, 16 GB, 100 GB and a first CPU descriptor whose
frequency is NaN, `getSystemConfig` returns a snapshot whose clock speed is NaN, and its
evaluation is negative with the reason header set and all four slots empty: both `>=` and
`<` are false on NaN. -/
theorem nan_clock_names_no_deficiency :
    getSystemConfig 64 hostNaN =
      .ok { Cores := 8, ClockSpeedGHz := Float64.nan, MemoryGB := 16, DiskSpaceGB := 100 } ∧
    checkSystemHandler_result
        { Cores := 8, ClockSpeedGHz := Float64.nan, MemoryGB := 16, DiskSpaceGB := 100 } =
      { MeetsRequirements := false
        Message := "Ваш ПК не удовлетворяет требованиям."
        MessageBecause := "Это произошло из-за:"
        Message2 := ""
        Message3 := ""
        Message4 := ""
        Message5 := "" } := by
  constructor
  · rfl
  · decide

/-- Away from NaN the negative result always names a deficiency: if the clock speed of the
snapshot is not NaN and `MeetsRequirements` is false, one of the four slots is non-empty. -/
theorem some_slot_nonempty_of_ne_nan (config : PCConfig)
    (hnan : config.ClockSpeedGHz ≠ Float64.nan)
    (hm : (checkSystemHandler_result config).MeetsRequirements = false) :
    (checkSystemHandler_result config).Message2 ≠ "" ∨
      (checkSystemHandler_result config).Message3 ≠ "" ∨
      (checkSystemHandler_result config).Message4 ≠ "" ∨
      (checkSystemHandler_result config).Message5 ≠ "" := by
  by_cases h : 4 ≤ config.Cores ∧
      Float64.ge config.ClockSpeedGHz (Float64.ofQuotient false 21 10) = true ∧
      6 ≤ config.MemoryGB ∧ 20 ≤ config.DiskSpaceGB
  · rw [checkSystemHandler_result_pass config h] at hm
    exact absurd hm (by decide)
  · rw [checkSystemHandler_result_fail config h]
    have hreq : Float64.ofQuotient false 21 10 ≠ Float64.nan := by decide
    by_cases c1 : config.Cores < 4
    · left
      simp [c1]
    by_cases c2 : Float64.lt config.ClockSpeedGHz (Float64.ofQuotient false 21 10) = true
    · right; left
      simp [c2]
    by_cases c3 : config.MemoryGB < 6
    · right; right; left
      simp [c3]
    by_cases c4 : config.DiskSpaceGB < 20
    · right; right; right
      simp [c4]
    exfalso
    apply h
    rcases Float64.lt_or_ge_of_ne_nan hnan hreq with hlt | hge
    · exact absurd hlt c2
    · exact ⟨by omega, hge, by omega, by omega⟩

/-- C3, at the failing inputs: when the memory query, or the disk query, returns a nil
pointer with its error, `getSystemConfig` panics on reading the field through the pointer
and returns no snapshot, and the handler writes no document. -/
theorem getSystemConfig_panics_on_failed_query (intSize : Nat) :
    hostMemFail.memVirtualMemory = (none, some "open /proc/meminfo: permission denied") ∧
    getSystemConfig intSize hostMemFail = .error .nilPointerDereference ∧
    hostDiskFail.diskUsage "/" = (none, some "no such file or directory") ∧
    getSystemConfig intSize hostDiskFail = .error .nilPointerDereference ∧
    checkSystemHandler intSize hostMemFail { body := "" } requestGet =
      .error .nilPointerDereference ∧
    checkSystemHandler intSize hostDiskFail { body := "" } requestGet =
      .error .nilPointerDereference := by
  refine ⟨rfl, rfl, rfl, rfl, rfl, rfl⟩

/-- C4: when the core-count query fails and the other three succeed, `getSystemConfig`
returns a snapshot with `Cores = 0` whose clock speed, memory and disk space are the values
derived from their own queries, the same as on a host that differs only in a core-count
query that succeeds. -/
theorem cores_failure_isolated (intSize : Nat) (host host' : Host) (cores cores' : Int)
    (e : GoError) (cpuInfo : List InfoStat) (vm : VirtualMemoryStat) (du : UsageStat)
    (hc : host.cpuCounts true = (cores, some e))
    (hc' : host'.cpuCounts true = (cores', none))
    (hi : host.cpuInfo = (cpuInfo, none)) (hi' : host'.cpuInfo = (cpuInfo, none))
    (hm : host.memVirtualMemory = (some vm, none))
    (hm' : host'.memVirtualMemory = (some vm, none))
    (hd : host.diskUsage "/" = (some du, none))
    (hd' : host'.diskUsage "/" = (some du, none)) :
    ∃ config config' : PCConfig,
      getSystemConfig intSize host = .ok config ∧
      getSystemConfig intSize host' = .ok config' ∧
      config.Cores = 0 ∧ config'.Cores = cores' ∧
      config.ClockSpeedGHz =
        (match cpuInfo with
          | first :: _ => Float64.div first.Mhz (Float64.ofQuotient false 1000 1)
          | [] => Float64.zero) ∧
      config.MemoryGB = toInt intSize (vm.Total.val / 2 ^ 30) ∧
      config.DiskSpaceGB = toInt intSize (du.Free.val / 2 ^ 30) ∧
      config.ClockSpeedGHz = config'.ClockSpeedGHz ∧
      config.MemoryGB = config'.MemoryGB ∧
      config.DiskSpaceGB = config'.DiskSpaceGB := by
  have h := getSystemConfig_ok intSize host vm du (by rw [hm]) (by rw [hd])
  have h' := getSystemConfig_ok intSize host' vm du (by rw [hm']) (by rw [hd'])
  rw [hc, hi] at h
  rw [hc', hi'] at h'
  refine ⟨_, _, h, h', ?_, ?_, ?_, ?_, ?_, ?_, ?_, ?_⟩
  · rfl
  · rfl
  · cases cpuInfo <;> rfl
  · rfl
  · rfl
  · rfl
  · rfl
  · rfl

/-- C4 at a concrete host: `hostCountsFail` against `hostOK`. -/
theorem cores_failure_isolated_witness :
    ∃ config config' : PCConfig,
      getSystemConfig 64 hostCountsFail = .ok config ∧
      getSystemConfig 64 hostOK = .ok config' ∧
      config.Cores = 0 ∧ config'.Cores = 8 ∧
      config.ClockSpeedGHz =
        (match [({ Mhz := Float64.ofQuotient false 2100 1 } : InfoStat)] with
          | first :: _ => Float64.div first.Mhz (Float64.ofQuotient false 1000 1)
          | [] => Float64.zero) ∧
      config.MemoryGB =
        toInt 64 ((⟨17179869184, by decide⟩ : Fin (2 ^ 64)).val / 2 ^ 30) ∧
      config.DiskSpaceGB =
        toInt 64 ((⟨107374182400, by decide⟩ : Fin (2 ^ 64)).val / 2 ^ 30) ∧
      config.ClockSpeedGHz = config'.ClockSpeedGHz ∧
      config.MemoryGB = config'.MemoryGB ∧
      config.DiskSpaceGB = config'.DiskSpaceGB :=
  cores_failure_isolated 64 hostCountsFail hostOK 0 8 "cpu counts: not implemented yet"
    [{ Mhz := Float64.ofQuotient false 2100 1 }] { Total := ⟨17179869184, by decide⟩ }
    { Free := ⟨107374182400, by decide⟩ } rfl rfl rfl rfl rfl rfl rfl rfl

/-- With a 32-bit `int` the conversion wraps from 2 ^ 61 bytes on. -/
theorem toInt_32_wraps : toInt 32 (2 ^ 61 / (1024 * 1024 * 1024)) = -2147483648 := by
  decide

/-- C5, as stated, fails where `int` has 32 bits: for 2 ^ 61 bytes of memory the quotient
2 ^ 31 wraps to a negative `MemoryGB`, which is not the quotient rounded down. -/
theorem gigabytes_wrap_on_32_bit_int :
    (∃ config : PCConfig,
      getSystemConfig 32 hostHugeMemory = .ok config ∧ config.MemoryGB = -2147483648) ∧
    ¬ ∃ config : PCConfig,
      getSystemConfig 32 hostHugeMemory = .ok config ∧
      0 ≤ config.MemoryGB ∧
      config.MemoryGB * 2 ^ 30 ≤ (2305843009213693952 : Int) ∧
      (2305843009213693952 : Int) < (config.MemoryGB + 1) * 2 ^ 30 := by
  have h := getSystemConfig_ok 32 hostHugeMemory
    { Total := ⟨2305843009213693952, by decide⟩ } { Free := ⟨107374182400, by decide⟩ } rfl rfl
  have hv : toInt 32 ((⟨2305843009213693952, by decide⟩ : Fin (2 ^ 64)).val /
      (1024 * 1024 * 1024)) = -2147483648 := by decide
  refine ⟨⟨_, h, hv⟩, ?_⟩
  rintro ⟨config, hc, h0, _, _⟩
  rw [h] at hc
  have hcfg := Except.ok.inj hc
  rw [← hcfg] at h0
  simp only [hv] at h0
  omega

/-- C5, amended: for every byte count `b` the memory query (total) or the disk query (free
on the root volume) reports through a non-nil result, if the quotient of `b` by 2 ^ 30
fits the `int` (is below `2 ^ (intSize - 1)`) the snapshot field is that quotient rounded
down: a non-negative `g` with `g * 2 ^ 30 ≤ b < (g + 1) * 2 ^ 30`.  Every `uint64` count
fits an `int` of 35 bits or more, so of 64 bits. -/
theorem gigabytes_truncated_if_fits (intSize : Nat) (host : Host) (vm : VirtualMemoryStat)
    (du : UsageStat)
    (hm : host.memVirtualMemory.1 = some vm) (hd : (host.diskUsage "/").1 = some du) :
    ∃ config : PCConfig,
      getSystemConfig intSize host = .ok config ∧
      (vm.Total.val / 2 ^ 30 < 2 ^ (intSize - 1) →
        config.MemoryGB = ((vm.Total.val / 2 ^ 30 : Nat) : Int) ∧
        0 ≤ config.MemoryGB ∧
        config.MemoryGB * 2 ^ 30 ≤ (vm.Total.val : Int) ∧
        (vm.Total.val : Int) < (config.MemoryGB + 1) * 2 ^ 30) ∧
      (du.Free.val / 2 ^ 30 < 2 ^ (intSize - 1) →
        config.DiskSpaceGB = ((du.Free.val / 2 ^ 30 : Nat) : Int) ∧
        0 ≤ config.DiskSpaceGB ∧
        config.DiskSpaceGB * 2 ^ 30 ≤ (du.Free.val : Int) ∧
        (du.Free.val : Int) < (config.DiskSpaceGB + 1) * 2 ^ 30) ∧
      (35 ≤ intSize →
        vm.Total.val / 2 ^ 30 < 2 ^ (intSize - 1) ∧
        du.Free.val / 2 ^ 30 < 2 ^ (intSize - 1)) := by
  refine ⟨_, getSystemConfig_ok intSize host vm du hm hd, ?_, ?_, ?_⟩
  · intro hfit
    have ev : toInt intSize (vm.Total.val / (1024 * 1024 * 1024)) =
        ((vm.Total.val / (1024 * 1024 * 1024) : Nat) : Int) :=
      toInt_of_lt intSize _ hfit
    simp only [ev]
    omega
  · intro hfit
    have eu : toInt intSize (du.Free.val / (1024 * 1024 * 1024)) =
        ((du.Free.val / (1024 * 1024 * 1024) : Nat) : Int) :=
      toInt_of_lt intSize _ hfit
    simp only [eu]
    omega
  · intro hw
    have hp : 2 ^ 34 ≤ 2 ^ (intSize - 1) := Nat.pow_le_pow_right (by decide) (by omega)
    have hv := gigabytes_lt vm.Total
    have hu := gigabytes_lt du.Free
    exact ⟨by omega, by omega⟩

/-- C5 at a concrete host with a 64-bit `int`: 16 GiB less one byte of memory is 15 GB,
100 GiB free is 100 GB. -/
theorem gigabytes_truncated_if_fits_witness :
    ∃ config : PCConfig,
      getSystemConfig 64
          { hostOK with memVirtualMemory := (some { Total := ⟨17179869183, by decide⟩ }, none) } =
        .ok config ∧
      config.MemoryGB = 15 ∧ config.DiskSpaceGB = 100 ∧
      0 ≤ config.MemoryGB ∧
      config.MemoryGB * 2 ^ 30 ≤ (17179869183 : Int) ∧
      (17179869183 : Int) < (config.MemoryGB + 1) * 2 ^ 30 := by
  obtain ⟨config, hc, h1, h2, h3⟩ := gigabytes_truncated_if_fits 64
    { hostOK with memVirtualMemory := (some { Total := ⟨17179869183, by decide⟩ }, none) }
    { Total := ⟨17179869183, by decide⟩ } { Free := ⟨107374182400, by decide⟩ } rfl rfl
  obtain ⟨f1, f2⟩ := h3 (by decide)
  obtain ⟨a1, a2, a3, a4⟩ := h1 f1
  obtain ⟨b1, _, _, _⟩ := h2 f2
  refine ⟨config, hc, ?_, ?_, a2, ?_, ?_⟩
  · rw [a1]
    decide
  · rw [b1]
    decide
  · simpa using a3
  · simpa using a4

/-- C7: whenever `getSystemConfig` returns a snapshot (the memory and disk results are not
nil), its clock speed is the frequency of the first CPU descriptor divided by 1000 when the
descriptor query succeeds with a non-empty list, whatever the later descriptors are: Go's
`float64` quotient, which for a finite frequency is the double of the same sign nearest to
the exact quotient by 1000 (ties to even), for NaN is NaN and for an infinity is that
infinity.  It is 0 when the query returns an empty list or fails. -/
theorem clockSpeed_from_first_descriptor (intSize : Nat) (host : Host)
    (vm : VirtualMemoryStat) (du : UsageStat)
    (hm : host.memVirtualMemory.1 = some vm) (hd : (host.diskUsage "/").1 = some du) :
    ∃ config : PCConfig,
      getSystemConfig intSize host = .ok config ∧
      (∀ (first : InfoStat) (rest : List InfoStat), host.cpuInfo = (first :: rest, none) →
        config.ClockSpeedGHz = Float64.div first.Mhz (Float64.ofQuotient false 1000 1) ∧
        (∀ (s : Bool) (e : Fin 2047) (f : Fin (2 ^ 52)), first.Mhz = Float64.finite s e f →
          (∃ (e' : Fin 2047) (f' : Fin (2 ^ 52)),
            config.ClockSpeedGHz = Float64.finite s e' f') ∧
          Float64.RoundsTo ((Float64.finite s e f).toRat / 1000) config.ClockSpeedGHz) ∧
        (first.Mhz = Float64.nan → config.ClockSpeedGHz = Float64.nan) ∧
        (∀ s : Bool, first.Mhz = Float64.inf s → config.ClockSpeedGHz = Float64.inf s)) ∧
      (host.cpuInfo = ([], none) → config.ClockSpeedGHz = Float64.zero) ∧
      (∀ (l : List InfoStat) (e : GoError), host.cpuInfo = (l, some e) →
        config.ClockSpeedGHz = Float64.zero) := by
  refine ⟨_, getSystemConfig_ok intSize host vm du hm hd, ?_, ?_, ?_⟩
  · intro first rest h
    simp only [h]
    refine ⟨trivial, ?_, ?_, ?_⟩
    · intro s e f hf
      rw [hf]
      obtain ⟨e', f', h1, h2⟩ := Float64.div_thousand_roundsTo s e f
      rw [h1]
      exact ⟨⟨e', f', rfl⟩, h2⟩
    · intro hf
      rw [hf, Float64.thousand_bits]
      rfl
    · intro s hf
      rw [hf, Float64.thousand_bits]
      simp [Float64.div]
  · intro h
    simp only [h]
  · intro l e h
    simp only [h]

/-- The double 2100.0 has the bits 0x40A0680000000000 and the exact value 2100. -/
theorem Float64.two_thousand_one_hundred :
    Float64.ofQuotient false 2100 1 =
        Float64.finite false ⟨1034, by decide⟩ ⟨114349209288704, by decide⟩ ∧
      (Float64.finite false ⟨1034, by decide⟩ ⟨114349209288704, by decide⟩).toRat = 2100 := by
  refine ⟨by decide, ?_⟩
  have h : (2 : ℚ) ^ 1074 = 2 ^ 1033 * 2 ^ 41 := by rw [← pow_add]
  have hpos : (0 : ℚ) < 2 ^ 1033 := by positivity
  simp only [Float64.toRat, Float64.mantissa, Float64.exponent, h]
  rw [div_eq_iff (by positivity)]
  norm_num

/-- C7 at a concrete host: on `hostTwoCPUs` (2100 MHz first, 3500 MHz second) the clock
speed is the double 0x4000CCCCCCCCCCCD, the double nearest to 2100 / 1000. -/
theorem clockSpeed_from_first_descriptor_witness :
    ∃ config : PCConfig,
      getSystemConfig 64 hostTwoCPUs = .ok config ∧
      config.ClockSpeedGHz =
        Float64.finite false ⟨1024, by decide⟩ ⟨0xCCCCCCCCCCCD, by decide⟩ ∧
      Float64.RoundsTo (2100 / 1000) config.ClockSpeedGHz := by
  obtain ⟨config, hc, h1, _, _⟩ := clockSpeed_from_first_descriptor 64 hostTwoCPUs
    { Total := ⟨17179869184, by decide⟩ } { Free := ⟨107374182400, by decide⟩ } rfl rfl
  obtain ⟨hdiv, hfin, _, _⟩ := h1 { Mhz := Float64.ofQuotient false 2100 1 }
    [{ Mhz := Float64.ofQuotient false 3500 1 }] rfl
  obtain ⟨hbits, hval⟩ := Float64.two_thousand_one_hundred
  refine ⟨config, hc, ?_, ?_⟩
  · rw [hdiv]
    decide
  · have h2 := (hfin false ⟨1034, by decide⟩ ⟨114349209288704, by decide⟩ hbits).2
    rw [hval] at h2
    exact h2

/-- A reading of 2100 MHz gives the clock speed 2.1, the double the threshold is. -/
theorem clockSpeed_2100_MHz :
    Float64.div (Float64.ofQuotient false 2100 1) (Float64.ofQuotient false 1000 1) =
      Float64.ofQuotient false 21 10 := by
  decide

/-- C8, as stated, fails: the document rendered for a passing snapshot does not have five
message lines. -/
theorem five_message_lines_fails :
    ¬ elementCount "h2"
        (render (checkSystemHandler_result
          { Cores := 4, ClockSpeedGHz := Float64.ofQuotient false 21 10,
            MemoryGB := 6, DiskSpaceGB := 20 })) = 5 := by
  rw [elementCount_h2_render]
  decide

/-- C8, amended: the document rendered from any `Result` has one title, one header line and
exactly six message lines, which are, in this order, the summary, the reason header and the
four dimension slots (cores, clock, memory, disk), each escaped. -/
theorem six_message_lines (data : Result) :
    elementCount "title" (render data) = 1 ∧
    elementCount "h1" (render data) = 1 ∧
    elementCount "h2" (render data) = 6 ∧
    render data =
      docHead ++ (messageLine data.Message ++ (messageLine data.MessageBecause ++
        (messageLine data.Message2 ++ (messageLine data.Message3 ++
        (messageLine data.Message4 ++ (messageLine data.Message5 ++ docTail)))))) :=
  ⟨elementCount_title_render data, elementCount_h1_render data, elementCount_h2_render data,
    render_eq data⟩

/-- C9: the outcome of `checkSystemHandler` does not depend on the request: two requests
handled with the same host readings (and the same response writer) give the same document,
which is the rendering of the `Result` of the snapshot read from the host. -/
theorem handler_ignores_request (intSize : Nat) (host : Host) (w : ResponseWriter)
    (r₁ r₂ : Request) :
    checkSystemHandler intSize host w r₁ = checkSystemHandler intSize host w r₂ ∧
    checkSystemHandler intSize host w r₁ =
      (match getSystemConfig intSize host with
        | .error p => .error p
        | .ok config => .ok { body := w.body ++ render (checkSystemHandler_result config) }) :=
  ⟨rfl, rfl⟩

/-- The document the handler writes on `hostOK`, whatever the request. -/
theorem handler_document_on_hostOK :
    checkSystemHandler 64 hostOK { body := "" } requestPost =
      .ok { body := "\n<!DOCTYPE html>\n<html>\n<head>\n\t<title>UFirst - Проверка конфигурации ПК</title>\n</head>\n<body>\n\t<h1>UFirst - Проверка конфигурации ПК</h1>\n\t<h2>Ваш ПК удовлетворяет требованиям.</h2>\n\t<h2></h2>\n\t<h2></h2>\n\t<h2></h2>\n\t<h2></h2>\n\t<h2></h2>\n</body>\n</html>\n" } := by
  have hc : getSystemConfig 64 hostOK =
      .ok { Cores := 8, ClockSpeedGHz := Float64.ofQuotient false 21 10,
            MemoryGB := 16, DiskSpaceGB := 100 } := by
    rw [← clockSpeed_2100_MHz]
    rfl
  have hr : checkSystemHandler_result
      { Cores := 8, ClockSpeedGHz := Float64.ofQuotient false 21 10,
        MemoryGB := 16, DiskSpaceGB := 100 } =
      { MeetsRequirements := true, Message := "Ваш ПК удовлетворяет требованиям." } := by
    decide
  simp only [checkSystemHandler, hc, hr]
  congr 2
